import Mathlib

/-!
Verification development for the `tool_parse` engine: a shallow embedding of
the type-resolution, schema-marshalling and argument-compilation pipeline from
`src/tool_parse/_types.py`, `src/tool_parse/marshal.py` and
`src/tool_parse/compile.py`, together with theorems settling the frozen claims.

Modelling conventions:
- Python type objects and (post forward-reference resolution) annotations are
  represented by the syntax tree `TypeExpr`; structured-record classes are
  referenced by name and declared in an `Env` (a list of `RecordDecl`), so the
  identity checks of the source (`annot_info[0] is __model`, `__model in
  annot_info[1]`) become name comparisons.  Forward references are therefore
  already resolved in the embedding (`resolve_annotation` is the identity on
  non-string annotations in the source), and the namespace argument is dropped.
- Python runtime values are `PyVal`; Python dicts are association lists with
  string keys (JSON objects and tool-argument mappings are string-keyed).
  Python sets are lists deduplicated keeping the first occurrence.
- Machine floats appear only as payloads that the claims never compute with;
  they are modelled as integral floats (`PyVal.f : Int`).
- Exceptions are the `PyErr` inductive, carrying the payload the corresponding
  exception constructor of `src/tool_parse/exceptions.py` receives.  A Python
  error raised outside the repository code (AttributeError / TypeError from
  using a non-mapping, stack exhaustion) is `PyErr.pyRuntime` /
  `PyErr.recursionError`.
- External stdlib behaviour that the source calls into (`json.loads`,
  `ast.literal_eval` on parsed nodes, `asyncio`, `docstring_parser`) is
  modelled by small executable Lean functions, reproducing the documented
  behaviour the source relies on.
- Recursive descent through record environments is fuelled; exhausting fuel
  yields `PyErr.recursionError` (modelling Python's RecursionError).
-/

/-- A scalar constant allowed inside a `typing.Literal[...]`. -/
inductive PyLit where
  | s (v : String)
  | i (v : Int)
  | f (v : Int)
  | b (v : Bool)
  deriving DecidableEq, Repr

/-- The runtime type of a literal member (`type(e)` in the source);
`otherT` stands for any runtime type outside the supported scalar set. -/
inductive PyTag where
  | strT
  | intT
  | floatT
  | boolT
  | otherT
  deriving DecidableEq, Repr

def PyLit.tag : PyLit → PyTag
  | .s _ => .strT
  | .i _ => .intT
  | .f _ => .floatT
  | .b _ => .boolT

/-- A resolved Python type annotation (string/forward references already
evaluated, as `resolve_annotation` does in `_types.py`). -/
inductive TypeExpr where
  | str
  | int
  | float
  | bool
  | noneT
  | path
  | listT (args : List TypeExpr)
  | setT (args : List TypeExpr)
  | dictT (args : List TypeExpr)
  | union (args : List TypeExpr)
  | literal (args : List PyLit)
  | enumT (nm : String) (members : List String)
  | record (nm : String)
  | unknown (nm : String)
  deriving Repr

/-- The `base_type` component of `AnnotationInfo` in `_types.py`: the generic
origin of the annotation, with type arguments stripped. -/
inductive BaseHead where
  | strH
  | intH
  | floatH
  | boolH
  | noneH
  | pathH
  | listH
  | setH
  | dictH
  | literalH
  | enumH (nm : String) (members : List String)
  | recordH (nm : String)
  | unknownH (nm : String)
  deriving Repr

/-- A type argument as returned by `typing.get_args`: a type for containers
and unions, a literal scalar for `typing.Literal`. -/
inductive Arg where
  | ty (e : TypeExpr)
  | lit (l : PyLit)
  deriving Repr

/-- `AnnotationInfo` from `_types.py`. -/
structure AnnotInfo where
  base : BaseHead
  args : List Arg
  is_optional : Bool
  deriving Repr

/-- The error taxonomy.  The first six constructors carry exactly the keyword
payload of the matching exception class in `exceptions.py`; `valueError` and
`runtimeError` are the plain `ValueError`/`RuntimeError` messages the source
raises; `pyRuntime` models an uncaught Python-level AttributeError/TypeError;
`recursionError` models interpreter stack exhaustion. -/
inductive PyErr where
  | unsupportedType (type_hint_repr : String) (parent_type_repr : Option String)
      (supported_repr : String)
  | typeMismatch (expected_type_repr : String) (target_type_repr : Option String)
      (received_type_repr : String)
  | recursiveParameter (label : String) (type_base : String) (type_name : String)
  | requiredParameter (label : String) (type_base : String) (type_name : String)
  | invalidArgument (argRepr : String) (type_base : String) (valid_args : List String)
  | valueError (msg : String)
  | runtimeError (msg : String)
  | pyRuntime (msg : String)
  | recursionError
  deriving DecidableEq, Repr

/-- A Python runtime value. -/
inductive PyVal where
  | none
  | b (v : Bool)
  | i (v : Int)
  | f (v : Int)
  | s (v : String)
  | list (elems : List PyVal)
  | dict (entries : List (String × PyVal))
  | setV (elems : List PyVal)
  | tuple (elems : List PyVal)
  | path (p : String)
  | enumMember (enumName : String) (member : String)
  | recordInst (nm : String) (fields : List (String × PyVal))
  deriving Repr

/-- A JSON-like schema value (the mappings `marshal.py` builds). -/
inductive JVal where
  | s (v : String)
  | i (v : Int)
  | f (v : Int)
  | b (v : Bool)
  | arr (elems : List JVal)
  | obj (entries : List (String × JVal))
  deriving Repr

/-- Python `dict.get`-style lookup in an insertion-ordered association list. -/
def alookup {α : Type} : List (String × α) → String → Option α
  | [], _ => Option.none
  | (k2, v) :: rest, k => if k2 = k then some v else alookup rest k

/-- Removal of a key (Python `dict.pop(k, default)` leaves the rest in order). -/
def eraseKey {α : Type} : List (String × α) → String → List (String × α)
  | [], _ => []
  | (k2, v) :: rest, k => if k2 = k then eraseKey rest k else (k2, v) :: eraseKey rest k

/-- Python `d[k] = v`: replace in place if the key exists, else append. -/
def dictInsert {α : Type} : List (String × α) → String → α → List (String × α)
  | [], k, v => [(k, v)]
  | (k2, v2) :: rest, k, v =>
      if k2 = k then (k, v) :: rest else (k2, v2) :: dictInsert rest k v

mutual
/-- Loose model of `repr`/`get_type_repr` on a resolved annotation, used only
inside error payloads. -/
def typeRepr : TypeExpr → String
  | .str => "str"
  | .int => "int"
  | .float => "float"
  | .bool => "bool"
  | .noneT => "NoneType"
  | .path => "pathlib.Path"
  | .listT [] => "list"
  | .listT as => "list[" ++ String.intercalate ", " (typeReprList as) ++ "]"
  | .setT [] => "set"
  | .setT as => "set[" ++ String.intercalate ", " (typeReprList as) ++ "]"
  | .dictT [] => "dict"
  | .dictT as => "dict[" ++ String.intercalate ", " (typeReprList as) ++ "]"
  | .union as => "typing.Union[" ++ String.intercalate ", " (typeReprList as) ++ "]"
  | .literal _ => "typing.Literal"
  | .enumT nm _ => nm
  | .record nm => nm
  | .unknown nm => nm

def typeReprList : List TypeExpr → List String
  | [] => []
  | a :: rest => typeRepr a :: typeReprList rest
end

/-- `get_type_repr` applied to a `base_type`. -/
def baseRepr : BaseHead → String
  | .strH => "str"
  | .intH => "int"
  | .floatH => "float"
  | .boolH => "bool"
  | .noneH => "NoneType"
  | .pathH => "pathlib.Path"
  | .listH => "list"
  | .setH => "set"
  | .dictH => "dict"
  | .literalH => "typing.Literal"
  | .enumH nm _ => nm
  | .recordH nm => nm
  | .unknownH nm => nm

/-- `_SUPPORTED_TYPE_MAP` of `_types.py`, restricted to the heads the
embedding can reach (the bare `typing.NamedTuple`/`TypedDict`/`BaseModel`/
`Literal`/`Enum` entries correspond to annotations the dispatch handles
through earlier branches or that cannot arise as resolved `TypeExpr`s). -/
def supportedTypeMap : BaseHead → Option String
  | .strH => some "string"
  | .intH => some "integer"
  | .floatH => some "number"
  | .boolH => some "boolean"
  | .setH => some "array"
  | .listH => some "array"
  | .dictH => some "object"
  | .pathH => some "string"
  | _ => Option.none

/-- Stand-in for `_SUPPORTED_TYPES_REPR` of `_types.py`. -/
def SUPPORTED_REPR : String :=
  "str | int | float | bool | set | list | dict | Path | Set | List | Dict" ++
    " | NamedTuple | TypedDict | BaseModel | Literal | Enum"

/-- The three accepted optional-union spellings enumerated by the
`UnsupportedTypeException` raised for malformed unions in `_types.py`. -/
def threeSpellings : String :=
  "typing.Optional[<type>], typing.Union[<type>, None], <type> | None"

/-- `typing.get_origin`/`typing.get_args` combined, as used by
`extract_annotation_info`. -/
def originAndArgs : TypeExpr → BaseHead × List Arg
  | .str => (.strH, [])
  | .int => (.intH, [])
  | .float => (.floatH, [])
  | .bool => (.boolH, [])
  | .noneT => (.noneH, [])
  | .path => (.pathH, [])
  | .listT as => (.listH, as.map .ty)
  | .setT as => (.setH, as.map .ty)
  | .dictT as => (.dictH, as.map .ty)
  | .union as => (.unknownH "union", as.map .ty)
  | .literal ls => (.literalH, ls.map .lit)
  | .enumT nm ms => (.enumH nm ms, [])
  | .record nm => (.recordH nm, [])
  | .unknown nm => (.unknownH nm, [])

def Arg.tag : Arg → PyTag
  | .lit l => l.tag
  | .ty _ => .otherT

def dedupTags (ts : List PyTag) : List PyTag :=
  ts.foldl (fun acc t => if acc.contains t then acc else acc ++ [t]) []

def isLiteralHead : BaseHead → Bool
  | .literalH => true
  | _ => false

def tagAllowed : PyTag → Bool
  | .otherT => false
  | _ => true

def tagRepr : PyTag → String
  | .strT => "str"
  | .intT => "int"
  | .floatT => "float"
  | .boolT => "bool"
  | .otherT => "type"

/-- `NoneType in args` over the resolved union arguments. -/
def hasNoneArm : List TypeExpr → Bool
  | [] => false
  | .noneT :: _ => true
  | _ :: rest => hasNoneArm rest

/-- The shared tail of `extract_annotation_info`: the literal-argument
validation (`arg_types` must be exactly one supported scalar type), followed
by the (identity, in the embedding) resolution of non-literal type arguments.
`orig` is the original resolved annotation, used in the error payload. -/
def finish_annot (orig : TypeExpr) (b : BaseHead) (as : List Arg) (opt : Bool) :
    Except PyErr AnnotInfo :=
  if isLiteralHead b then
    if (dedupTags (as.map Arg.tag)).length ≠ 1 then
      .error (.unsupportedType (typeRepr orig) (some "Literal") "args must be of same type")
    else if tagAllowed ((dedupTags (as.map Arg.tag)).headD .otherT) then .ok ⟨b, as, opt⟩
    else
      .error (.unsupportedType (tagRepr ((dedupTags (as.map Arg.tag)).headD .otherT))
        (some "Literal") "str, int, float, bool")
  else .ok ⟨b, as, opt⟩

/-- `x is TypeExpr.noneT`. -/
def isNoneTE : TypeExpr → Bool
  | .noneT => true
  | _ => false

/-- `args[1 if args.index(NoneType) == 0 else 0]`: the non-null arm of a
two-armed union (meaningful under the guard of the union branch). -/
def unionOtherArm : List TypeExpr → TypeExpr
  | [a, b] => if isNoneTE a then b else a
  | _ => .noneT

/-- `extract_annotation_info` of `_types.py`.  A union is accepted only when
it has exactly two arguments one of which is `NoneType` (the source guard
`len(args) != 2 or NoneType not in args`); the resolver then recurses on the
other arm (`args[1 if args.index(NoneType) == 0 else 0]`), re-runs the shared
literal validation and marks the result optional, discarding the recursive
optional flag (the `_` in the source). -/
def extract_annot_info : TypeExpr → Except PyErr AnnotInfo
  | .union [TypeExpr.noneT, bArm] => do
      let i ← extract_annot_info bArm
      finish_annot (.union [TypeExpr.noneT, bArm]) i.base i.args true
  | .union [aArm, TypeExpr.noneT] => do
      let i ← extract_annot_info aArm
      finish_annot (.union [aArm, TypeExpr.noneT]) i.base i.args true
  | .union as =>
      .error (.unsupportedType (typeRepr (.union as)) (some "Union") threeSpellings)
  | e =>
      let (b, as) := originAndArgs e
      finish_annot e b as false

/-- Value-level `None` test (`raw_value is None`, `value is None`). -/
def isNoneVal : PyVal → Bool
  | .none => true
  | _ => false

/-- `get_type_repr(type(raw_value))`. -/
def valTypeRepr : PyVal → String
  | .none => "NoneType"
  | .b _ => "bool"
  | .i _ => "int"
  | .f _ => "float"
  | .s _ => "str"
  | .list _ => "list"
  | .dict _ => "dict"
  | .setV _ => "set"
  | .tuple _ => "tuple"
  | .path _ => "pathlib.Path"
  | .enumMember nm _ => nm
  | .recordInst nm _ => nm

/-- `isinstance(raw_value, e_type)` for the classes `validate` is called with
(`bool` counts as `int`, as in Python). -/
def isinst : PyVal → BaseHead → Bool
  | .s _, .strH => true
  | .i _, .intH => true
  | .b _, .boolH => true
  | .b _, .intH => true
  | .f _, .floatH => true
  | .list _, .listH => true
  | .dict _, .dictH => true
  | .setV _, .setH => true
  | _, _ => false

/-- Loose model of Python `str(x)`, exact on the scalars the engine coerces. -/
def pyToStr : PyVal → String
  | .s v => v
  | .i v => toString v
  | .b v => if v then "True" else "False"
  | .f v => toString v ++ ".0"
  | .none => "None"
  | .path p => p
  | _ => "object"

def digitsToNat (ds : List Char) : Nat :=
  ds.foldl (fun acc c => acc * 10 + (c.toNat - 48)) 0

/-- Model of Python `int(s)` / the integral part of `float(s)` on strings:
an optional sign followed by digits. -/
def pyStrToInt? (s : String) : Option Int :=
  match s.data with
  | [] => Option.none
  | '-' :: ds =>
      if ds ≠ [] && ds.all Char.isDigit then some (-(digitsToNat ds : Int))
      else Option.none
  | ds =>
      if ds ≠ [] && ds.all Char.isDigit then some ((digitsToNat ds : Int))
      else Option.none

/-- Outcome of calling a constructor such as `int(x)`/`float(x)`/`str(x)`:
success, a ValueError (caught by `validate`), or a TypeError (uncaught). -/
inductive CoResult where
  | ok (v : PyVal)
  | valueErr
  | typeErr

/-- The `e_type(raw_value)` coercion attempted by `validate` for
`str`/`int`/`float` (strings convert through integer parsing in the model;
floats are integral). -/
def coerce (b : BaseHead) (v : PyVal) : CoResult :=
  match b, v with
  | .strH, v => .ok (.s (pyToStr v))
  | .intH, .s sv => match pyStrToInt? sv with | some n => .ok (.i n) | Option.none => .valueErr
  | .intH, .f n => .ok (.i n)
  | .intH, .b bv => .ok (.i (if bv then 1 else 0))
  | .intH, .i n => .ok (.i n)
  | .intH, _ => .typeErr
  | .floatH, .s sv => match pyStrToInt? sv with | some n => .ok (.f n) | Option.none => .valueErr
  | .floatH, .i n => .ok (.f n)
  | .floatH, .b bv => .ok (.f (if bv then 1 else 0))
  | .floatH, .f n => .ok (.f n)
  | .floatH, _ => .typeErr
  | _, _ => .typeErr

/-- The inner `validate` closure of `compile_value`: pass the value through
when it is an instance of `e_type`; for `str`/`float`/`int` attempt the
constructor coercion, turning its ValueError into `TypeMismatchException`;
any other expected class raises `TypeMismatchException` directly. -/
def validateCoerce (e : BaseHead) (targetRepr : Option String) (receivedRepr : String)
    (raw : PyVal) : Except PyErr PyVal :=
  if isinst raw e then .ok raw
  else
    match e with
    | .strH | .floatH | .intH =>
        match coerce e raw with
        | .ok v => .ok v
        | .valueErr => .error (.typeMismatch (baseRepr e) targetRepr receivedRepr)
        | .typeErr => .error (.pyRuntime "constructor argument of unsupported type")
    | _ => .error (.typeMismatch (baseRepr e) targetRepr receivedRepr)

/-- Python `==` between a runtime value and a literal member (`raw_value
not in args`); `bool`/`int`/`float` compare numerically as in Python. -/
def pyEqLit : PyVal → PyLit → Bool
  | .s a, .s b2 => a == b2
  | .i a, .i b2 => a == b2
  | .i a, .b bv => a == (if bv then (1 : Int) else 0)
  | .i a, .f b2 => a == b2
  | .b a, .b b2 => a == b2
  | .b a, .i n => (if a then (1 : Int) else 0) == n
  | .b a, .f n => (if a then (1 : Int) else 0) == n
  | .f a, .f b2 => a == b2
  | .f a, .i b2 => a == b2
  | .f a, .b bv => a == (if bv then (1 : Int) else 0)
  | _, _ => false

def litToVal : PyLit → PyVal
  | .s v => .s v
  | .i v => .i v
  | .f v => .f v
  | .b v => .b v

def litRepr (l : PyLit) : String := pyToStr (litToVal l)

mutual
/-- Python `==` on runtime values (used by `set(...)` deduplication). -/
def pyValEq : PyVal → PyVal → Bool
  | .none, .none => true
  | .b a, .b b2 => a == b2
  | .b a, .i n => (if a then (1 : Int) else 0) == n
  | .i n, .b a => n == (if a then (1 : Int) else 0)
  | .i a, .i b2 => a == b2
  | .i a, .f b2 => a == b2
  | .f a, .i b2 => a == b2
  | .f a, .f b2 => a == b2
  | .s a, .s b2 => a == b2
  | .path a, .path b2 => a == b2
  | .enumMember e1 m1, .enumMember e2 m2 => e1 == e2 && m1 == m2
  | .list a, .list b2 => pyValListEq a b2
  | .setV a, .setV b2 => pyValListEq a b2
  | .tuple a, .tuple b2 => pyValListEq a b2
  | .dict a, .dict b2 => pyValDictEq a b2
  | .recordInst n1 f1, .recordInst n2 f2 => n1 == n2 && pyValDictEq f1 f2
  | _, _ => false

def pyValListEq : List PyVal → List PyVal → Bool
  | [], [] => true
  | a :: as, b2 :: bs => pyValEq a b2 && pyValListEq as bs
  | _, _ => false

def pyValDictEq : List (String × PyVal) → List (String × PyVal) → Bool
  | [], [] => true
  | (k1, v1) :: as, (k2, v2) :: bs => k1 == k2 && pyValEq v1 v2 && pyValDictEq as bs
  | _, _ => false
end

/-- `set(...)`: deduplicate keeping the first occurrence (the model's stand-in
for Python's unordered unique-element set). -/
def dedupFirst (xs : List PyVal) : List PyVal :=
  xs.foldl (fun acc x => if acc.any (pyValEq x) then acc else acc ++ [x]) []

/-- The kind probe of the source (`is_pydantic_model` / `is_typeddict` /
`is_namedtuple`), made explicit per declaration. -/
inductive RecordKind where
  | pydantic
  | typeddict
  | namedtuple
  deriving DecidableEq, Repr

/-- One declared field of a structured record.  `dflt` encodes, per kind, the
pydantic default (`Option.none` = `PydanticUndefined`), the TypedDict class
attribute, or the NamedTuple `_field_defaults` entry; `fdescr` is the
pydantic `field.description`. -/
structure FieldDecl where
  label : String
  annot : TypeExpr
  dflt : Option PyVal
  fdescr : Option String

/-- A structured-record class declaration. -/
structure RecordDecl where
  name : String
  kind : RecordKind
  fields : List FieldDecl
  docSummary : Option String
  docParams : List (String × String)

abbrev Env := List RecordDecl

def envFind (env : Env) (nm : String) : Option RecordDecl :=
  env.find? (fun r => r.name == nm)

/-- The recursion guard of the source:
`annot_info[0] is __obj or __obj in annot_info[1]`. -/
def recCond (nm : String) (info : AnnotInfo) : Bool :=
  (match info.base with | .recordH n => n == nm | _ => false) ||
    info.args.any (fun a => match a with | .ty (.record n) => n == nm | _ => false)

/-- `arguments.get(label)` (Python returns `None` for an absent key; a
non-mapping raises AttributeError). -/
def aget (argv : PyVal) (k : String) : Except PyErr PyVal :=
  match argv with
  | .dict m => .ok ((alookup m k).getD .none)
  | _ => .error (.pyRuntime "arguments object has no attribute get")

/-- Whether a pydantic default is usable for substitution
(`field.default not in (None, PydanticUndefined)`). -/
def defaultUsable : Option PyVal → Bool
  | some v => !(isNoneVal v)
  | Option.none => false

def headOfTag : PyTag → BaseHead
  | .strT => .strH
  | .intT => .intH
  | .floatT => .floatH
  | .boolT => .boolH
  | .otherT => .unknownH "type"

mutual
/-- `compile_value` of `compile.py`: recursively compile a raw value against
resolved annotation info.  Fuel models the interpreter stack (decremented on
every recursive step); the structured-record branch inlines the
`compile_pydantic_object`/`compile_typeddict_object`/`compile_namedtuple_object`
dispatch (field loop plus `__obj(**fields)` construction). -/
def compile_value : Nat → Env → AnnotInfo → PyVal → Except PyErr (PyVal × Bool)
  | 0, _, _, _ => .error .recursionError
  | fuel + 1, env, info, raw =>
    if isNoneVal raw then .ok (.none, info.is_optional)
    else
      let typeReprS := baseRepr info.base
      let recvRepr := valTypeRepr raw
      match info.base, info.args with
      | .literalH, .lit l0 :: rest => do
          let raw2 ← validateCoerce (headOfTag l0.tag) (some typeReprS) recvRepr raw
          if (Arg.lit l0 :: rest).any
              (fun a => match a with | .lit l => pyEqLit raw2 l | .ty _ => false) then
            .ok (raw2, info.is_optional)
          else
            .error (.invalidArgument (pyToStr raw2) "Literal"
              ((Arg.lit l0 :: rest).filterMap
                (fun a => match a with | .lit l => some (litRepr l) | .ty _ => Option.none)))
      | .listH, .ty elemTy :: _ => do
          let raw2 ← validateCoerce .listH (some typeReprS) recvRepr raw
          match raw2 with
          | .list elems => do
              let argInfo ← extract_annot_info elemTy
              let vals ← compile_value_list fuel env argInfo elems
              .ok (.list vals, info.is_optional)
          | _ => .error (.pyRuntime "unreachable: validate list passed a non-list")
      | .setH, .ty elemTy :: _ => do
          let raw2 ← validateCoerce .listH (some typeReprS) recvRepr raw
          match raw2 with
          | .list elems => do
              let argInfo ← extract_annot_info elemTy
              let vals ← compile_value_list fuel env argInfo elems
              .ok (.setV (dedupFirst vals), info.is_optional)
          | _ => .error (.pyRuntime "unreachable: validate list passed a non-list")
      | b, _ =>
          match b with
          | .pathH => do
              let raw2 ← validateCoerce .strH (some typeReprS) recvRepr raw
              match raw2 with
              | .s sv => .ok (.path sv, info.is_optional)
              | _ => .error (.pyRuntime "unreachable: validate str passed a non-str")
          | .enumH nm members => do
              let raw2 ← validateCoerce .strH (some typeReprS) recvRepr raw
              match raw2 with
              | .s sv =>
                  if members.contains sv then .ok (.enumMember nm sv, info.is_optional)
                  else .error (.invalidArgument sv (nm ++ " Enum") members)
              | _ => .error (.pyRuntime "unreachable: validate str passed a non-str")
          | _ =>
              if (supportedTypeMap b).isSome then do
                let raw2 ← validateCoerce b Option.none recvRepr raw
                .ok (raw2, info.is_optional)
              else
                match b with
                | .recordH nm =>
                    match envFind env nm with
                    | some r => do
                        let raw2 ← validateCoerce .dictH (some typeReprS) recvRepr raw
                        let flds ←
                          match r.kind with
                          | .pydantic => compile_pydantic_fields fuel env r.name raw2 r.fields
                          | .typeddict =>
                              compile_typed_fields fuel env r.name "TypedDict" raw2 r.fields
                          | .namedtuple =>
                              compile_typed_fields fuel env r.name "NamedTuple" raw2 r.fields
                        .ok (.recordInst r.name flds, info.is_optional)
                    | Option.none =>
                        .error (.unsupportedType typeReprS Option.none SUPPORTED_REPR)
                | _ => .error (.unsupportedType typeReprS Option.none SUPPORTED_REPR)

/-- The element generator `(compile_value(arg_info, ns, v)[0] for v in raw)`
of the list/set branch. -/
def compile_value_list : Nat → Env → AnnotInfo → List PyVal → Except PyErr (List PyVal)
  | _, _, _, [] => .ok []
  | 0, _, _, _ :: _ => .error .recursionError
  | fuel + 1, env, argInfo, v :: rest => do
      let rv ← compile_value fuel env argInfo v
      let vs ← compile_value_list fuel env argInfo rest
      .ok (rv.1 :: vs)

/-- The per-field loop of `_compile_typed_object` (TypedDict/NamedTuple):
resolve, recursion guard, compile, required check, default substitution. -/
def compile_typed_fields : Nat → Env → String → String → PyVal → List FieldDecl →
    Except PyErr (List (String × PyVal))
  | _, _, _, _, _, [] => .ok []
  | 0, _, _, _, _, _ :: _ => .error .recursionError
  | fuel + 1, env, tyName, tb, argv, f :: rest => do
      let info ← extract_annot_info f.annot
      if recCond tyName info then .error (.recursiveParameter f.label tb tyName)
      else do
        let raw ← aget argv f.label
        let vo ← compile_value fuel env info raw
        if !vo.2 && isNoneVal vo.1 && !f.dflt.isSome then
          .error (.requiredParameter f.label tb tyName)
        else do
          let v := if isNoneVal vo.1 then f.dflt.getD .none else vo.1
          let tail ← compile_typed_fields fuel env tyName tb argv rest
          .ok ((f.label, v) :: tail)

/-- The per-field loop of `compile_pydantic_object`. -/
def compile_pydantic_fields : Nat → Env → String → PyVal → List FieldDecl →
    Except PyErr (List (String × PyVal))
  | _, _, _, _, [] => .ok []
  | 0, _, _, _, _ :: _ => .error .recursionError
  | fuel + 1, env, mname, argv, f :: rest => do
      let info ← extract_annot_info f.annot
      if recCond mname info then .error (.recursiveParameter f.label "pydantic model" mname)
      else do
        let raw ← aget argv f.label
        let vo ← compile_value fuel env info raw
        let value := if isNoneVal vo.1 && defaultUsable f.dflt then f.dflt.getD .none else vo.1
        if !vo.2 && isNoneVal value && f.dflt.isNone then
          .error (.requiredParameter f.label "pydantic model" mname)
        else do
          let tail ← compile_pydantic_fields fuel env mname argv rest
          .ok ((f.label, value) :: tail)
end

/-- Dispatch of `compile_pydantic_object` / `compile_typeddict_object` /
`compile_namedtuple_object` (field loop plus `__obj(**fields)`), as invoked
from the `compile_object` entry point. -/
def compile_record (fuel : Nat) (env : Env) (r : RecordDecl) (argv : PyVal) :
    Except PyErr PyVal :=
  match r.kind with
  | .pydantic => do
      let flds ← compile_pydantic_fields fuel env r.name argv r.fields
      .ok (.recordInst r.name flds)
  | .typeddict => do
      let flds ← compile_typed_fields fuel env r.name "TypedDict" argv r.fields
      .ok (.recordInst r.name flds)
  | .namedtuple => do
      let flds ← compile_typed_fields fuel env r.name "NamedTuple" argv r.fields
      .ok (.recordInst r.name flds)

/-- State of the asyncio machinery when `run_async` is entered: an installed
event loop (running or not), or no usable current loop. -/
inductive LoopState where
  | installed (running : Bool)
  | absent
  deriving DecidableEq, Repr

structure EventLoop where
  running : Bool

/-- Modelled from the stdlib: `asyncio.get_event_loop()` returns the installed
loop, or raises RuntimeError when no current loop exists. -/
def get_event_loop : LoopState → Except String EventLoop
  | .installed r => .ok ⟨r⟩
  | .absent => .error "There is no current event loop in thread"

/-- Modelled from the stdlib: `loop.run_until_complete(coro)` drives the
coroutine (whose completed value is `v`) unless the loop is already running. -/
def run_until_complete (loop : EventLoop) (v : PyVal) : Except String PyVal :=
  if loop.running then .error "This event loop is already running" else .ok v

/-- Modelled from the stdlib: `asyncio.run(coro)` creates and runs a fresh
loop, failing when called from inside a running loop. -/
def asyncio_run (st : LoopState) (v : PyVal) : Except String PyVal :=
  match st with
  | .installed true => .error "asyncio.run() cannot be called from a running event loop"
  | _ => .ok v

/-- The message of the RuntimeError `run_async` raises for re-entrant use. -/
def reentrantMessage : String :=
  "The event loop is already running. " ++
    "Add import nest_asyncio; nest_asyncio.apply() to your code to fix this issue."

def charsStartWith : List Char → List Char → Bool
  | [], _ => true
  | _ :: _, [] => false
  | n :: ns, h :: hs => n == h && charsStartWith ns hs

def charsContain (needle : List Char) : List Char → Bool
  | [] => charsStartWith needle []
  | h :: hs => charsStartWith needle (h :: hs) || charsContain needle hs

/-- Python `needle in hay` on strings. -/
def strContainsSub (needle hay : String) : Bool :=
  charsContain needle.data hay.data

/-- The inner `except RuntimeError` handler of `run_async`: try
`asyncio.run`, re-raising its running-loop failure as the re-entrant error. -/
def run_async_fallback (st : LoopState) (v : PyVal) : Except PyErr PyVal :=
  match asyncio_run st v with
  | .ok r => .ok r
  | .error msg =>
      if strContainsSub "cannot be called from a running event loop" msg then
        .error (.runtimeError reentrantMessage)
      else .error (.runtimeError msg)

/-- `run_async` of `compile.py`: reuse the current loop via
`run_until_complete`, falling back to `asyncio.run` on RuntimeError. -/
def run_async (st : LoopState) (v : PyVal) : Except PyErr PyVal :=
  match get_event_loop st with
  | .ok loop =>
      match run_until_complete loop v with
      | .ok r => .ok r
      | .error _ => run_async_fallback st v
  | .error _ => run_async_fallback st v

/-- A declared function parameter; `dflt = Option.none` is `inspect._empty`
(no declared default). -/
structure ParamDecl where
  label : String
  annot : TypeExpr
  dflt : Option PyVal
  positional_only : Bool

/-- A target function: signature, docstring data, asynchrony, and its body
(as the value the call returns, given positional and keyword arguments). -/
structure FuncDecl where
  fname : String
  params : List ParamDecl
  docSummary : Option String
  docParams : List (String × String)
  isAsync : Bool
  impl : List PyVal → List (String × PyVal) → PyVal

/-- `param.default is None`. -/
def isDefaultNone : Option PyVal → Bool
  | some PyVal.none => true
  | _ => false

/-- The per-parameter loop of `compile_function_object`: positional values
are taken from the popped `*args` bucket by index, the rest by keyword from
the (already popped) mapping.  A required parameter that stays `None` raises
`RecursiveParameterException` — exactly as written at `compile.py:99`. -/
def compile_fn_params (fuel : Nat) (env : Env) (fname : String) (pa : List PyVal)
    (m : List (String × PyVal)) :
    Nat → List ParamDecl → Except PyErr (List PyVal × List (String × PyVal))
  | _, [] => .ok ([], [])
  | idx, p :: rest => do
      let raw := if idx + 1 ≤ pa.length then pa.getD idx .none
                 else (alookup m p.label).getD .none
      let info ← extract_annot_info p.annot
      let vo ← compile_value fuel env info raw
      let value := if isNoneVal vo.1 then p.dflt.getD .none else vo.1
      if !vo.2 && isNoneVal value && !(isDefaultNone p.dflt) then
        .error (.recursiveParameter p.label "function" fname)
      else do
        let tail ← compile_fn_params fuel env fname pa m (idx + 1) rest
        if p.positional_only then .ok (value :: tail.1, tail.2)
        else .ok (tail.1, (p.label, value) :: tail.2)

/-- `compile_function_object` of `compile.py`.  The second component is the
state of the `arguments` object after the call: `arguments.pop("*args", [])`
removes the positional bucket from the caller's mapping before the
per-parameter walk.  Async targets are driven through `run_async`. -/
def compile_function_object (fuel : Nat) (env : Env) (f : FuncDecl) (argv : PyVal)
    (st : LoopState) : (Except PyErr PyVal) × PyVal :=
  match argv with
  | .dict m =>
      let popped := (alookup m "*args").getD (.list [])
      let m2 := eraseKey m "*args"
      match popped with
      | .list pa =>
          match compile_fn_params fuel env f.fname pa m2 0 f.params with
          | .ok ak =>
              (if f.isAsync then run_async st (f.impl ak.1 ak.2)
               else .ok (f.impl ak.1 ak.2), .dict m2)
          | .error e => (.error e, .dict m2)
      | _ => (.error (.pyRuntime "object has no len"), .dict m2)
  | _ => (.error (.pyRuntime "arguments object has no attribute pop"), argv)

/-- The object given to the top-level entry points, pre-classified the way
`is_pydantic_model` / `is_typeddict` / `is_namedtuple` / `inspect.isfunction`
classify it; `other` is anything none of the probes accepts. -/
inductive ObjTarget where
  | record (r : RecordDecl)
  | func (f : FuncDecl)
  | other

/-- The `arguments` parameter of `compile_object`: JSON text or a mapping. -/
inductive RawArgs where
  | text (s : String)
  | mapping (m : List (String × PyVal))

def jsonSkipWs : List Char → List Char
  | [] => []
  | c :: rest =>
      if c = ' ' || c = '\n' || c = '\t' || c = '\r' then jsonSkipWs rest else c :: rest

def jsonDigits : List Char → (List Char × List Char)
  | [] => ([], [])
  | c :: rest =>
      if c.isDigit then
        let (ds, rem) := jsonDigits rest
        (c :: ds, rem)
      else ([], c :: rest)

def jsonParseInt (cs : List Char) : Option (Int × List Char) :=
  match cs with
  | '-' :: rest =>
      match jsonDigits rest with
      | ([], _) => Option.none
      | (ds, rem) => some (-(digitsToNat ds : Int), rem)
  | _ =>
      match jsonDigits cs with
      | ([], _) => Option.none
      | (ds, rem) => some ((digitsToNat ds : Int), rem)

def jsonParseString : List Char → Option (String × List Char)
  | [] => Option.none
  | c :: rest =>
      if c = '"' then some ("", rest)
      else if c = '\\' then
        match rest with
        | [] => Option.none
        | e :: rest2 => do
            let (s, rem) ← jsonParseString rest2
            some (String.mk [e] ++ s, rem)
      else do
        let (s, rem) ← jsonParseString rest
        some (String.mk [c] ++ s, rem)

mutual
/-- Modelled from the stdlib: a small `json.loads` value parser (integral
numbers; strings with pass-through escapes). -/
def jsonParseVal (fuel : Nat) (cs : List Char) : Option (PyVal × List Char) :=
  match fuel with
  | 0 => Option.none
  | fuel' + 1 =>
    match jsonSkipWs cs with
    | [] => Option.none
    | c :: rest =>
        if c = 'n' then
          match rest with
          | 'u' :: 'l' :: 'l' :: rem => some (.none, rem)
          | _ => Option.none
        else if c = 't' then
          match rest with
          | 'r' :: 'u' :: 'e' :: rem => some (.b true, rem)
          | _ => Option.none
        else if c = 'f' then
          match rest with
          | 'a' :: 'l' :: 's' :: 'e' :: rem => some (.b false, rem)
          | _ => Option.none
        else if c = '"' then do
          let (s, rem) ← jsonParseString rest
          some (.s s, rem)
        else if c = '[' then
          match jsonSkipWs rest with
          | ']' :: rem => some (.list [], rem)
          | rest2 => do
              let (v, rem) ← jsonParseVal fuel' rest2
              jsonParseArrTail fuel' rem [v]
        else if c = '{' then
          match jsonSkipWs rest with
          | '}' :: rem => some (.dict [], rem)
          | rest2 => jsonParseObjTail fuel' rest2 []
        else do
          let (n, rem) ← jsonParseInt (c :: rest)
          some (.i n, rem)

def jsonParseArrTail (fuel : Nat) (cs : List Char) (acc : List PyVal) :
    Option (PyVal × List Char) :=
  match fuel with
  | 0 => Option.none
  | fuel' + 1 =>
    match jsonSkipWs cs with
    | ']' :: rem => some (.list acc, rem)
    | ',' :: rest => do
        let (v, rem) ← jsonParseVal fuel' rest
        jsonParseArrTail fuel' rem (acc ++ [v])
    | _ => Option.none

def jsonParseObjTail (fuel : Nat) (cs : List Char) (acc : List (String × PyVal)) :
    Option (PyVal × List Char) :=
  match fuel with
  | 0 => Option.none
  | fuel' + 1 =>
    match jsonSkipWs cs with
    | '"' :: rest => do
        let (k, rem) ← jsonParseString rest
        match jsonSkipWs rem with
        | ':' :: rem2 => do
            let (v, rem3) ← jsonParseVal fuel' rem2
            match jsonSkipWs rem3 with
            | '}' :: rem4 => some (.dict (dictInsert acc k v), rem4)
            | ',' :: rem4 => jsonParseObjTail fuel' rem4 (dictInsert acc k v)
            | _ => Option.none
        | _ => Option.none
    | _ => Option.none
end

/-- Modelled from the stdlib: `json.loads`, `Option.none` when the text is not
valid JSON (for the subset the model covers). -/
def json_loads (s : String) : Option PyVal :=
  match jsonParseVal ((s.data.length + 1) * 4) s.data with
  | some (v, rem) => if jsonSkipWs rem = [] then some v else Option.none
  | Option.none => Option.none

/-- The object-capability dispatch shared by `compile_object`'s branches.
The second component is the post-call state of the arguments object. -/
def compile_dispatch (fuel : Nat) (env : Env) (obj : ObjTarget) (v : PyVal)
    (st : LoopState) : (Except PyErr PyVal) × PyVal :=
  match obj with
  | .record r => (compile_record fuel env r v, v)
  | .func f => compile_function_object fuel env f v st
  | .other => (.error (.valueError "Tool invocation failed, given object is not supported"), v)

/-- `compile_object` of `compile.py`: textual arguments are JSON-parsed first
(`ValueError` on a decode error), then the call is dispatched on the object's
capability.  The second component reports the caller's mapping after the call
(`Option.none` when the arguments were textual, so no caller mapping exists). -/
def compile_object (fuel : Nat) (env : Env) (obj : ObjTarget) (arguments : RawArgs)
    (st : LoopState) : (Except PyErr PyVal) × Option (List (String × PyVal)) :=
  match arguments with
  | .text s =>
      match json_loads s with
      | Option.none => (.error (.valueError "arguments is not a valid JSON object"), Option.none)
      | some v => ((compile_dispatch fuel env obj v st).1, Option.none)
  | .mapping m =>
      match compile_dispatch fuel env obj (.dict m) st with
      | (res, .dict m2) => (res, some m2)
      | (res, _) => (res, Option.none)

/-- The expression AST `parse_expression` works on: the `body[0].value` node
`ast.parse` returns (`Option.none` models a SyntaxError from `ast.parse`).
Dict-literal keys are restricted to strings, matching the model's `PyVal`. -/
inductive PyAst where
  | call (func : String) (args : List PyAst) (kwargs : List (String × PyAst))
  | const (l : PyLit)
  | constNone
  | listLit (elems : List PyAst)
  | dictLit (entries : List (String × PyAst))
  | nameRef (id : String)
  | otherExpr (descr : String)
  deriving Repr

mutual
/-- Modelled from the stdlib: `ast.literal_eval` on an already-parsed node —
literal constants and containers succeed; any other node (name references,
calls, arbitrary expressions) raises ValueError. -/
def literalEval : PyAst → Except PyErr PyVal
  | .const l => .ok (litToVal l)
  | .constNone => .ok .none
  | .listLit es => do
      let vs ← literalEvalList es
      .ok (.list vs)
  | .dictLit es => do
      let vs ← literalEvalDict es
      .ok (.dict vs)
  | .call _ _ _ => .error (.valueError "malformed node or string")
  | .nameRef _ => .error (.valueError "malformed node or string")
  | .otherExpr _ => .error (.valueError "malformed node or string")

def literalEvalList : List PyAst → Except PyErr (List PyVal)
  | [] => .ok []
  | a :: rest => do
      let v ← literalEval a
      let vs ← literalEvalList rest
      .ok (v :: vs)

def literalEvalDict : List (String × PyAst) → Except PyErr (List (String × PyVal))
  | [] => .ok []
  | (k, a) :: rest => do
      let v ← literalEval a
      let vs ← literalEvalDict rest
      .ok ((k, v) :: vs)
end

mutual
/-- `eval_ast_node` of `parse_expression`: a call node evaluates its
arguments recursively and becomes the `(name, {"*args": [...], **kwargs})`
tuple; every other node goes through `ast.literal_eval`. -/
def eval_ast_node : PyAst → Except PyErr PyVal
  | .call f args kws => do
      let avs ← evalAstList args
      let kvs ← evalAstKw kws
      .ok (.tuple [.s f, .dict (("*args", .list avs) :: kvs)])
  | n => literalEval n

def evalAstList : List PyAst → Except PyErr (List PyVal)
  | [] => .ok []
  | a :: rest => do
      let v ← eval_ast_node a
      let vs ← evalAstList rest
      .ok (v :: vs)

def evalAstKw : List (String × PyAst) → Except PyErr (List (String × PyVal))
  | [] => .ok []
  | (k, a) :: rest => do
      let v ← eval_ast_node a
      let vs ← evalAstKw rest
      .ok ((k, v) :: vs)
end

/-- `parse_expression` of `compile.py`, taken from the point where `ast.parse`
has produced (or failed to produce, `parsed = Option.none`) the top node. -/
def parse_expression (text : String) (parsed : Option PyAst) :
    Except PyErr (String × List (String × PyVal)) :=
  match parsed with
  | Option.none =>
      .error (.valueError ("Invalid syntax detected in call expression: " ++ text))
  | some (.call f args kws) =>
      match eval_ast_node (.call f args kws) with
      | .ok (.tuple [.s nm, .dict m]) => .ok (nm, m)
      | .ok _ => .error (.pyRuntime "unreachable: call node evaluation shape")
      | .error e => .error e
  | some _ => .error (.valueError (text ++ " is not a valid call signature"))

/-- `ParamMetadata` of `marshal.py`. -/
structure ParamMetadata where
  label : String
  schema : JVal
  required : Bool

/-- The accumulation loop of `marshal_parameters` (properties in insertion
order, required labels in declaration order). -/
def marshal_params_core : List ParamMetadata → List (String × JVal) → List String →
    (List (String × JVal) × List String)
  | [], props, reqs => (props, reqs)
  | p :: rest, props, reqs =>
      marshal_params_core rest (dictInsert props p.label p.schema)
        (if p.required then reqs ++ [p.label] else reqs)

/-- `marshal_parameters` of `marshal.py`: the empty mapping when there are no
properties, else the `{type, properties, required}` object schema. -/
def marshal_parameters (ps : List ParamMetadata) : JVal :=
  let pr := marshal_params_core ps [] []
  if pr.1.isEmpty then .obj []
  else
    .obj [("type", .s "object"), ("properties", .obj pr.1),
      ("required", .arr (pr.2.map .s))]

/-- `map_param_to_description`: keep only docstring parameters that carry a
non-empty description. -/
def map_param_to_description (dps : List (String × String)) : List (String × String) :=
  dps.filter (fun p => !(p.2 == ""))

/-- `schema["description"] = d`. -/
def setDescr (sch : JVal) (d : String) : JVal :=
  match sch with
  | .obj es => .obj (dictInsert es "description" (.s d))
  | x => x

/-- Python string truthiness of an optional string. -/
def strTruthy : Option String → Bool
  | some sv => !(sv == "")
  | Option.none => false

/-- Python `a or b` on optional strings. -/
def pyOrStrOpt (a b : Option String) : Option String :=
  if strTruthy a then a else b

def tagSchemaType : PyTag → Option String
  | .strT => some "string"
  | .intT => some "integer"
  | .floatT => some "number"
  | .boolT => some "boolean"
  | .otherT => Option.none

def litToJ : PyLit → JVal
  | .s v => .s v
  | .i v => .i v
  | .f v => .f v
  | .b v => .b v

mutual
/-- `marshal_annotation` of `marshal.py`.  The structured-record branch
inlines the `generate_*_metadata` dispatch (the source picks `generate_fn`
and feeds it to `marshal_parameters`). -/
def marshal_annot : Nat → Env → AnnotInfo → Except PyErr (JVal × Bool)
  | 0, _, _ => .error .recursionError
  | fuel + 1, env, info =>
    match info.base, info.args with
    | .listH, .ty elemTy :: _ => do
        let argInfo ← extract_annot_info elemTy
        let inner ← marshal_annot fuel env argInfo
        .ok (.obj [("type", .s "array"), ("items", inner.1)], info.is_optional)
    | .setH, .ty elemTy :: _ => do
        let argInfo ← extract_annot_info elemTy
        let inner ← marshal_annot fuel env argInfo
        .ok (.obj [("type", .s "array"), ("items", inner.1)], info.is_optional)
    | .literalH, .lit l0 :: rest =>
        -- `type(args[0]) is bool` rebinds `_type = bool` and falls through the
        -- Path/Enum checks to the `_SUPPORTED_TYPE_MAP` branch: no enum key.
        if l0.tag = .boolT then .ok (.obj [("type", .s "boolean")], info.is_optional)
        else
          match tagSchemaType l0.tag with
          | some tv =>
              .ok (.obj [("enum", .arr ((Arg.lit l0 :: rest).filterMap
                  (fun a => match a with | .lit l => some (litToJ l) | .ty _ => Option.none))),
                ("type", .s tv)], info.is_optional)
          | Option.none => .error (.pyRuntime "KeyError in supported type map")
    | b, _ =>
        match b with
        | .pathH => .ok (.obj [("type", .s "string")], info.is_optional)
        | .enumH _ members =>
            .ok (.obj [("type", .s "string"), ("enum", .arr (members.map .s))],
              info.is_optional)
        | _ =>
            match supportedTypeMap b with
            | some tv => .ok (.obj [("type", .s tv)], info.is_optional)
            | Option.none =>
                match b with
                | .recordH nm =>
                    match envFind env nm with
                    | some r => do
                        let descmap := map_param_to_description r.docParams
                        let ps ←
                          match r.kind with
                          | .pydantic => gen_pydantic_fields fuel env r.name descmap r.fields
                          | .typeddict =>
                              gen_typed_fields fuel env r.name "TypeDict" descmap r.fields
                          | .namedtuple =>
                              gen_typed_fields fuel env r.name "NamedTuple" descmap r.fields
                        .ok (marshal_parameters ps, info.is_optional)
                    | Option.none =>
                        .error (.unsupportedType (baseRepr b) Option.none SUPPORTED_REPR)
                | _ => .error (.unsupportedType (baseRepr b) Option.none SUPPORTED_REPR)

/-- The per-field loop of `_generate_typed_metadata`. -/
def gen_typed_fields : Nat → Env → String → String → List (String × String) →
    List FieldDecl → Except PyErr (List ParamMetadata)
  | _, _, _, _, _, [] => .ok []
  | 0, _, _, _, _, _ :: _ => .error .recursionError
  | fuel + 1, env, tyName, tb, descmap, f :: rest => do
      let info ← extract_annot_info f.annot
      if recCond tyName info then .error (.recursiveParameter f.label tb tyName)
      else do
        let so ← marshal_annot fuel env info
        let schema :=
          match alookup descmap f.label with
          | some d => setDescr so.1 d
          | Option.none => so.1
        let tail ← gen_typed_fields fuel env tyName tb descmap rest
        .ok (⟨f.label, schema, !(so.2 || f.dflt.isSome)⟩ :: tail)

/-- The per-field loop of `generate_pydantic_metadata`. -/
def gen_pydantic_fields : Nat → Env → String → List (String × String) →
    List FieldDecl → Except PyErr (List ParamMetadata)
  | _, _, _, _, [] => .ok []
  | 0, _, _, _, _ :: _ => .error .recursionError
  | fuel + 1, env, mname, descmap, f :: rest => do
      let info ← extract_annot_info f.annot
      if recCond mname info then .error (.recursiveParameter f.label "pydantic model" mname)
      else do
        let so ← marshal_annot fuel env info
        let dd := pyOrStrOpt f.fdescr (alookup descmap f.label)
        let schema := if strTruthy dd then setDescr so.1 (dd.getD "") else so.1
        let tail ← gen_pydantic_fields fuel env mname descmap rest
        .ok (⟨f.label, schema, !so.2 && f.dflt.isNone⟩ :: tail)
end

/-- Dispatch of `generate_pydantic_metadata` / `generate_typeddict_metadata`
(which passes the source literal `"TypeDict"` base string) /
`generate_namedtuple_metadata`, over an explicit field list. -/
def generateRecordFields (fuel : Nat) (env : Env) (r : RecordDecl)
    (descmap : List (String × String)) (fs : List FieldDecl) :
    Except PyErr (List ParamMetadata) :=
  match r.kind with
  | .pydantic => gen_pydantic_fields fuel env r.name descmap fs
  | .typeddict => gen_typed_fields fuel env r.name "TypeDict" descmap fs
  | .namedtuple => gen_typed_fields fuel env r.name "NamedTuple" descmap fs

/-- The per-parameter loop of `generate_function_metadata`. -/
def gen_function_params (fuel : Nat) (env : Env) (descmap : List (String × String)) :
    List ParamDecl → Except PyErr (List ParamMetadata)
  | [] => .ok []
  | p :: rest => do
      let info ← extract_annot_info p.annot
      let so ← marshal_annot fuel env info
      let schema :=
        match alookup descmap p.label with
        | some d => setDescr so.1 d
        | Option.none => so.1
      let tail ← gen_function_params fuel env descmap rest
      .ok (⟨p.label, schema, !so.2 && p.dflt.isNone⟩ :: tail)

def objNameOf : ObjTarget → String
  | .record r => r.name
  | .func f => f.fname
  | .other => "object"

def objDocSummary : ObjTarget → Option String
  | .record r => r.docSummary
  | .func f => f.docSummary
  | .other => Option.none

def objDocParams : ObjTarget → List (String × String)
  | .record r => r.docParams
  | .func f => f.docParams
  | .other => []

/-- `marshal_object` of `marshal.py`: capability dispatch, then the
`{type: "function", function: {name, description?, parameters|input_schema}}`
envelope; the parameter-block key is `input_schema` exactly for
`spec == "claude"`, and the description comes from the explicit argument or
the docstring summary under Python truthiness. -/
def marshal_object (fuel : Nat) (env : Env) (obj : ObjTarget) (spec : String)
    (nameArg descArg : Option String) : Except PyErr JVal := do
  let descmap := map_param_to_description (objDocParams obj)
  let ps ←
    match obj with
    | .record r => generateRecordFields fuel env r descmap r.fields
    | .func f => gen_function_params fuel env descmap f.params
    | .other => .error (.valueError "Schema generation failed, given object is not supported.")
  let nm := (pyOrStrOpt nameArg (some (objNameOf obj))).getD (objNameOf obj)
  let dd := pyOrStrOpt descArg (objDocSummary obj)
  let fnEntries :=
    [("name", JVal.s nm)] ++
    (if strTruthy dd then [("description", JVal.s (dd.getD ""))] else []) ++
    [((if spec = "claude" then "input_schema" else "parameters"),
      marshal_parameters ps)]
  .ok (.obj [("type", .s "function"), ("function", .obj fnEntries)])

/-- The `type_base` string each marshal-side metadata generator passes to
`RecursiveParameterException` (note the source's literal `"TypeDict"` in
`generate_typeddict_metadata`). -/
def marshalTypeBase : RecordKind → String
  | .pydantic => "pydantic model"
  | .typeddict => "TypeDict"
  | .namedtuple => "NamedTuple"

/-- The `type_base` string each compile-side record compiler passes to
`RecursiveParameterException`. -/
def compileTypeBase : RecordKind → String
  | .pydantic => "pydantic model"
  | .typeddict => "TypedDict"
  | .namedtuple => "NamedTuple"

/-- The kind-dispatched field loop `compile_record` runs, over an explicit
field list. -/
def compileRecordFields (fuel : Nat) (env : Env) (r : RecordDecl) (argv : PyVal)
    (fs : List FieldDecl) : Except PyErr (List (String × PyVal)) :=
  match r.kind with
  | .pydantic => compile_pydantic_fields fuel env r.name argv fs
  | .typeddict => compile_typed_fields fuel env r.name "TypedDict" argv fs
  | .namedtuple => compile_typed_fields fuel env r.name "NamedTuple" argv fs

/-- Mark a resolution result optional, keeping its base and arguments (what
the union branch of `extract_annotation_info` produces from the non-null
arm). -/
def optionalized : Except PyErr AnnotInfo → Except PyErr AnnotInfo
  | .ok i => .ok ⟨i.base, i.args, true⟩
  | .error e => .error e

/-- The `get_flight_times(departure: str, arrival: str) -> str` example
function of the repository's test-suite. -/
def gft : FuncDecl :=
  { fname := "get_flight_times"
    params := [⟨"departure", .str, Option.none, false⟩,
               ⟨"arrival", .str, Option.none, false⟩]
    docSummary := some "Get flight times."
    docParams := [("departure", "Departure location code"),
                  ("arrival", "Arrival location code")]
    isAsync := false
    impl := fun _ _ => .s "2 hours" }

/-- A one-parameter function returning its keyword argument. -/
def echoFn : FuncDecl :=
  { fname := "echo"
    params := [⟨"x", .str, Option.none, false⟩]
    docSummary := Option.none
    docParams := []
    isAsync := false
    impl := fun _ kw => (alookup kw "x").getD .none }

/-- A parameterless undocumented function. -/
def f0 : FuncDecl :=
  { fname := "f0", params := [], docSummary := Option.none, docParams := []
    isAsync := false, impl := fun _ _ => .none }

/-- A parameterless asynchronous function. -/
def asyncFn : FuncDecl :=
  { fname := "af", params := [], docSummary := Option.none, docParams := []
    isAsync := true, impl := fun _ _ => .s "ok" }

/-- The recursive NamedTuple `Model(models: Set["Model"])` from the
repository's test-suite. -/
def modelNT : RecordDecl :=
  { name := "Model"
    kind := .namedtuple
    fields := [⟨"models", .setT [.record "Model"], Option.none, Option.none⟩]
    docSummary := some "Model."
    docParams := [("models", "set of models")] }

theorem marshal_params_core_reqs (ps : List ParamMetadata) (props : List (String × JVal))
    (reqs : List String) :
    (marshal_params_core ps props reqs).2 =
      reqs ++ (ps.filter (fun p => p.required)).map (fun p => p.label) := by
  induction ps generalizing props reqs with
  | nil => simp [marshal_params_core]
  | cons p rest ih =>
      by_cases hp : p.required <;>
        simp [marshal_params_core, hp, ih, List.filter_cons, List.append_assoc]

theorem dictInsert_ne_nil {α : Type} (m : List (String × α)) (k : String) (v : α) :
    dictInsert m k v ≠ [] := by
  cases m with
  | nil => simp [dictInsert]
  | cons h t =>
      obtain ⟨k2, v2⟩ := h
      simp only [dictInsert]
      split <;> simp

theorem marshal_params_core_props_nil (ps : List ParamMetadata) (props : List (String × JVal))
    (reqs : List String) :
    ((marshal_params_core ps props reqs).1 = [] ↔ (ps = [] ∧ props = [])) := by
  induction ps generalizing props reqs with
  | nil => simp [marshal_params_core]
  | cons p rest ih =>
      simp only [marshal_params_core, ih, dictInsert_ne_nil, and_false]
      simp [dictInsert_ne_nil]

theorem eraseKey_of_not_mem {α : Type} (m : List (String × α)) (k : String)
    (h : alookup m k = Option.none) : eraseKey m k = m := by
  induction m with
  | nil => rfl
  | cons p rest ih =>
      obtain ⟨k2, v⟩ := p
      by_cases hk : k2 = k
      · simp [alookup, hk] at h
      · simp only [alookup, hk, if_false, if_neg hk] at h
        simp [eraseKey, hk, ih h]

theorem evalAstList_consts (ls : List PyLit) :
    evalAstList (ls.map PyAst.const) = .ok (ls.map litToVal) := by
  induction ls with
  | nil => rfl
  | cons l rest ih =>
      simp only [List.map_cons, evalAstList, eval_ast_node, literalEval, ih]
      rfl

/-- C1: the claim states a missing required function parameter raises the
required-parameter error (`RequiredParameterException`).  The code instead
raises `RecursiveParameterException` at `compile.py:99` for exactly this
condition (a code bug: that exception class is documented as the recursive
type guard, its message speaks about parameter types, the per-field record
compilers raise `RequiredParameterException` in the parallel situation, and
the docstring of `compile_function_object` describes the condition as "a
required parameter is missing").  Evaluating the embedded code on
`get_flight_times` with empty arguments exhibits the divergence. -/
theorem c1_missing_required_param_raises_recursive_error :
    (compile_function_object 10 [] gft (.dict []) .absent).1 =
      .error (.recursiveParameter "departure" "function" "get_flight_times") ∧
    PyErr.recursiveParameter "departure" "function" "get_flight_times" ≠
      PyErr.requiredParameter "departure" "function" "get_flight_times" :=
  ⟨rfl, by decide⟩

/-- C3 counterexample: on textual arguments that are valid JSON but not an
object at the top level (here the JSON array text `[1, 2]`), `compile_object`
does not raise the argument-format `ValueError`; the non-mapping flows into
the function compiler and dies with a Python-level attribute error. -/
theorem c3_counterexample :
    (compile_object 10 [] (.func echoFn) (.text "[1, 2]") .absent).1 =
      .error (.pyRuntime "arguments object has no attribute pop") ∧
    PyErr.pyRuntime "arguments object has no attribute pop" ≠
      PyErr.valueError "arguments is not a valid JSON object" :=
  ⟨rfl, by decide⟩

/-- C3 (amended): textual arguments are JSON-parsed before any other
processing; the argument-format error is raised exactly when the text is not
valid JSON, while a successfully parsed value of any shape (object or not) is
passed on to the capability dispatch unchecked. -/
theorem c3_amended_json_gate (fuel : Nat) (env : Env) (obj : ObjTarget) (s : String)
    (st : LoopState) :
    (json_loads s = Option.none →
      compile_object fuel env obj (.text s) st =
        (.error (.valueError "arguments is not a valid JSON object"), Option.none)) ∧
    (∀ v, json_loads s = some v →
      compile_object fuel env obj (.text s) st =
        ((compile_dispatch fuel env obj v st).1, Option.none)) := by
  constructor
  · intro h
    simp [compile_object, h]
  · intro v h
    simp [compile_object, h]

/-- C3 witness: malformed JSON text raises the argument-format error. -/
theorem c3_witness :
    compile_object 10 [] (.func echoFn) (.text "bad json") .absent =
      (.error (.valueError "arguments is not a valid JSON object"), Option.none) :=
  (c3_amended_json_gate 10 [] (.func echoFn) "bad json" .absent).1 rfl

/-- C6 counterexample: a call expression nested inside an argument does not
make `parse_expression` fail — `f(g(1))` parses successfully, the inner call
becoming a `(name, raw-argument-mapping)` tuple. -/
theorem c6_counterexample :
    parse_expression "f(g(1))" (some (.call "f" [.call "g" [.const (.i 1)] []] [])) =
      .ok ("f", [("*args", PyVal.list [PyVal.tuple [PyVal.s "g",
        PyVal.dict [("*args", PyVal.list [PyVal.i 1])]]])]) := rfl

/-- C6 (amended): `parse_expression` fails on a syntax error, on a top-level
non-call expression, and on a non-literal argument such as a name reference
— but an argument that is itself a call expression is accepted and
recursively parsed into a `(name, raw-argument-mapping)` tuple. -/
theorem c6_amended_literal_call_grammar (text : String) :
    (parse_expression text Option.none =
      .error (.valueError ("Invalid syntax detected in call expression: " ++ text))) ∧
    (∀ l, parse_expression text (some (.const l)) =
      .error (.valueError (text ++ " is not a valid call signature"))) ∧
    (∀ fn x kws, parse_expression text (some (.call fn [.nameRef x] kws)) =
      .error (.valueError "malformed node or string")) ∧
    (∀ (fn g : String) (ls : List PyLit),
      parse_expression text (some (.call fn [.call g (ls.map PyAst.const) []] [])) =
      .ok (fn, [("*args", PyVal.list [PyVal.tuple [PyVal.s g,
        PyVal.dict [("*args", PyVal.list (ls.map litToVal))]]])])) := by
  refine ⟨rfl, fun l => rfl, fun fn x kws => rfl, fun fn g ls => ?_⟩
  simp only [parse_expression, eval_ast_node, evalAstList, evalAstKw, evalAstList_consts]
  rfl

/-- C7 counterexample: a boolean literal type does not get an `enum` key —
`Literal[True, False]` marshals to a plain boolean schema. -/
theorem c7_counterexample :
    marshal_annot 5 [] ⟨.literalH, [.lit (.b true), .lit (.b false)], false⟩ =
      .ok (.obj [("type", JVal.s "boolean")], false) ∧
    alookup [("type", JVal.s "boolean")] "enum" = Option.none := ⟨rfl, rfl⟩

/-- C7 (amended): a non-empty homogeneous literal marshals to
`{enum: args, type: mapped-scalar}` for string/integer/float members, but
boolean literal members are rebound to the plain `bool` type and fall
through to `{type: "boolean"}` with no `enum` key. -/
theorem c7_amended_literal_marshal (fuel : Nat) (env : Env) (l0 : PyLit) (rest : List Arg)
    (opt : Bool)
    (hsame : ((Arg.lit l0 :: rest).map Arg.tag).all (fun t => t = l0.tag) = true) :
    (l0.tag = .boolT →
      marshal_annot (fuel + 1) env ⟨.literalH, .lit l0 :: rest, opt⟩ =
        .ok (.obj [("type", JVal.s "boolean")], opt)) ∧
    (∀ tv, ¬ l0.tag = .boolT → tagSchemaType l0.tag = some tv →
      marshal_annot (fuel + 1) env ⟨.literalH, .lit l0 :: rest, opt⟩ =
        .ok (.obj [("enum", .arr ((Arg.lit l0 :: rest).filterMap
            (fun a => match a with | .lit l => some (litToJ l) | .ty _ => Option.none))),
          ("type", JVal.s tv)], opt)) := by
  constructor
  · intro hb
    simp [marshal_annot, hb]
  · intro tv hb htv
    simp [marshal_annot, hb, htv]

/-- C7 witness: an integer literal keeps its `enum` key. -/
theorem c7_witness :
    marshal_annot 5 [] ⟨.literalH, [.lit (.i 1), .lit (.i 2)], false⟩ =
      .ok (.obj [("enum", .arr [JVal.i 1, JVal.i 2]), ("type", JVal.s "integer")], false) :=
  (c7_amended_literal_marshal 4 [] (.i 1) [.lit (.i 2)] false (by decide)).2
    "integer" (by decide) rfl

/-- C8: compiling an asynchronous target drives the coroutine synchronously —
an installed non-running loop is reused, a missing loop is replaced by a
fresh `asyncio.run`, and an already-running loop makes `run_async` (and hence
`compile_function_object` on an async target) fail fast with the re-entrant
loop RuntimeError instead of scheduling re-entrantly. -/
theorem c8_run_async_policy :
    (∀ v : PyVal, run_async (.installed false) v = .ok v) ∧
    (∀ v : PyVal, run_async .absent v = .ok v) ∧
    (∀ v : PyVal, run_async (.installed true) v = .error (.runtimeError reentrantMessage)) ∧
    (∀ (fuel : Nat) (env : Env) (nm : String)
        (impl : List PyVal → List (String × PyVal) → PyVal) (st : LoopState)
        (m : List (String × PyVal)), alookup m "*args" = Option.none →
      (compile_function_object fuel env ⟨nm, [], Option.none, [], true, impl⟩
          (.dict m) st).1 =
        run_async st (impl [] [])) := by
  refine ⟨fun v => rfl, fun v => rfl, fun v => rfl, ?_⟩
  intro fuel env nm impl st m h
  simp [compile_function_object, h, compile_fn_params]

/-- C8 witness: a concrete async target compiled from inside a running loop
raises the re-entrant loop error. -/
theorem c8_witness :
    (compile_function_object 5 [] asyncFn (.dict []) (.installed true)).1 =
      .error (.runtimeError reentrantMessage) := by
  have h4 := c8_run_async_policy.2.2.2 5 [] "af" (fun _ _ => PyVal.s "ok")
    (.installed true) [] rfl
  have h3 := c8_run_async_policy.2.2.1 (PyVal.s "ok")
  exact h4.trans h3

/-- C9 counterexample: `compile_object` does not leave the caller's mapping
unchanged — compiling a function with a `*args` bucket pops the entry from
the caller's dict. -/
theorem c9_counterexample :
    (compile_object 10 [] (.func echoFn)
        (.mapping [("*args", PyVal.list [PyVal.s "hi"])]) .absent).2 = some [] ∧
    ([] : List (String × PyVal)) ≠ [("*args", PyVal.list [PyVal.s "hi"])] :=
  ⟨rfl, by simp⟩

/-- C9 (amended): the engine keeps no state across calls (each entry point is
a function of its inputs in the model), and record targets leave the
arguments mapping unchanged; but compiling a function target removes the
`*args` entry from the caller's mapping, so the mapping is only unchanged
when it carries no positional bucket. -/
theorem c9_amended_argument_mutation (fuel : Nat) (env : Env) (st : LoopState)
    (m : List (String × PyVal)) :
    (∀ f : FuncDecl,
      (compile_object fuel env (.func f) (.mapping m) st).2 =
        some (eraseKey m "*args")) ∧
    (∀ r : RecordDecl,
      (compile_object fuel env (.record r) (.mapping m) st).2 = some m) ∧
    (alookup m "*args" = Option.none → eraseKey m "*args" = m) := by
  refine ⟨fun f => ?_, fun r => rfl, fun h => eraseKey_of_not_mem m "*args" h⟩
  simp only [compile_object, compile_dispatch, compile_function_object]
  rcases hpop : (alookup m "*args").getD (.list []) with _ | _ | _ | _ | _ | pa | _ | _ | _ | _ | _ | _ <;>
    simp only []
  rcases hc : compile_fn_params fuel env f.fname pa (eraseKey m "*args") 0 f.params with
    ak | e <;> simp

/-- C9 witness: a mapping without a `*args` bucket is returned unchanged. -/
theorem c9_witness :
    (compile_object 3 [] (.func echoFn) (.mapping [("x", PyVal.s "v")]) .absent).2 =
      some [("x", PyVal.s "v")] := by
  have h := (c9_amended_argument_mutation 3 [] .absent [("x", PyVal.s "v")]).1 echoFn
  have h2 := (c9_amended_argument_mutation 3 [] .absent [("x", PyVal.s "v")]).2.2 rfl
  rw [h, h2]

/-- C10: an empty declared member list marshals to the empty mapping, the
`{type, properties, required}` wrapper appears exactly when at least one
property exists, and the `required` list holds precisely the labels whose
metadata is marked required, in declaration order; a parameterless function
and a fieldless record both get an empty parameter block in the envelope. -/
theorem c10_empty_parameter_block :
    (∀ ps : List ParamMetadata, (marshal_parameters ps = .obj [] ↔ ps = [])) ∧
    (∀ ps : List ParamMetadata, ps ≠ [] →
      ∃ props, props ≠ [] ∧ marshal_parameters ps =
        .obj [("type", JVal.s "object"), ("properties", JVal.obj props),
          ("required", JVal.arr
            (((ps.filter (fun p => p.required)).map (fun p => p.label)).map JVal.s))]) ∧
    (∀ (fuel : Nat) (env : Env) (spec nm : String)
        (impl : List PyVal → List (String × PyVal) → PyVal),
      marshal_object fuel env (.func ⟨nm, [], Option.none, [], false, impl⟩) spec
          Option.none Option.none =
        .ok (.obj [("type", JVal.s "function"), ("function", JVal.obj
          [("name", JVal.s nm),
           ((if spec = "claude" then "input_schema" else "parameters"), JVal.obj [])])])) ∧
    (∀ (fuel : Nat) (env : Env) (spec : String) (kind : RecordKind) (nm : String)
        (dp : List (String × String)),
      marshal_object fuel env (.record ⟨nm, kind, [], Option.none, dp⟩) spec
          Option.none Option.none =
        .ok (.obj [("type", JVal.s "function"), ("function", JVal.obj
          [("name", JVal.s nm),
           ((if spec = "claude" then "input_schema" else "parameters"), JVal.obj [])])])) := by
  refine ⟨fun ps => ?_, fun ps hne => ?_, fun fuel env spec nm impl => ?_,
    fun fuel env spec kind nm dp => ?_⟩
  · simp only [marshal_parameters]
    have h3 := marshal_params_core_props_nil ps [] []
    split
    · rename_i hempty
      rw [List.isEmpty_iff] at hempty
      simp [h3.mp hempty]
    · rename_i hempty
      rw [List.isEmpty_iff] at hempty
      constructor
      · intro hcontr
        exact absurd (congrArg (fun j => match j with | JVal.obj es => es.length | _ => 0)
          hcontr) (by simp)
      · intro hps
        exact absurd (h3.mpr ⟨hps, rfl⟩) hempty
  · refine ⟨(marshal_params_core ps [] []).1, ?_, ?_⟩
    · intro hcontr
      exact hne ((marshal_params_core_props_nil ps [] []).mp hcontr).1
    · simp only [marshal_parameters]
      split
      · rename_i hempty
        rw [List.isEmpty_iff] at hempty
        exact absurd ((marshal_params_core_props_nil ps [] []).mp hempty).1 hne
      · rw [marshal_params_core_reqs ps [] []]
        simp
  · rfl
  · cases kind <;>
      (unfold marshal_object
       simp [generateRecordFields, gen_typed_fields, gen_pydantic_fields, pyOrStrOpt,
         strTruthy, objNameOf, objDocSummary, objDocParams]
       rfl)

/-- C10 witness: a single required property produces the wrapper with its
label as the required list. -/
theorem c10_witness :
    ∃ props, props ≠ [] ∧ marshal_parameters [⟨"a", JVal.obj [], true⟩] =
      .obj [("type", JVal.s "object"), ("properties", JVal.obj props),
        ("required", JVal.arr [JVal.s "a"])] :=
  c10_empty_parameter_block.2.1 [⟨"a", JVal.obj [], true⟩] (by simp)

theorem except_bind_ok {γ α β : Type} (a : α) (f : α → Except γ β) :
    (Except.ok a >>= f : Except γ β) = f a := rfl

theorem except_bind_error {γ α β : Type} (e : γ) (f : α → Except γ β) :
    ((Except.error e : Except γ α) >>= f : Except γ β) = .error e := rfl

theorem strTruthy_pyOr (a b : Option String) :
    strTruthy (pyOrStrOpt a b) = (strTruthy a || strTruthy b) := by
  by_cases h : strTruthy a = true <;> simp [pyOrStrOpt, h]

theorem finish_annot_ok (orig : TypeExpr) (b : BaseHead) (as : List Arg) (opt : Bool)
    (i : AnnotInfo) (h : finish_annot orig b as opt = .ok i) :
    i = ⟨b, as, opt⟩ ∧ ∀ orig2 opt2, finish_annot orig2 b as opt2 = .ok ⟨b, as, opt2⟩ := by
  by_cases hl : isLiteralHead b = true
  · rcases hm : dedupTags (as.map Arg.tag) with _ | ⟨t, ts⟩
    · unfold finish_annot at h
      rw [if_pos hl, hm] at h
      simp at h
    · rcases ts with _ | ⟨t2, ts2⟩
      · by_cases ht : tagAllowed t = true
        · unfold finish_annot at h
          rw [if_pos hl, hm] at h
          simp only [List.length_cons, List.length_nil, List.headD_cons, ht] at h
          simp at h
          refine ⟨h.symm, fun orig2 opt2 => ?_⟩
          unfold finish_annot
          rw [if_pos hl, hm]
          simp [ht]
        · unfold finish_annot at h
          rw [if_pos hl, hm] at h
          simp [ht] at h
      · unfold finish_annot at h
        rw [if_pos hl, hm] at h
        simp at h
  · unfold finish_annot at h
    rw [if_neg hl] at h
    simp at h
    refine ⟨h.symm, fun orig2 opt2 => ?_⟩
    unfold finish_annot
    rw [if_neg hl]

theorem extract_ok_finish (x : TypeExpr) (i : AnnotInfo)
    (h : extract_annot_info x = .ok i) :
    ∀ orig2 opt2, finish_annot orig2 i.base i.args opt2 = .ok ⟨i.base, i.args, opt2⟩ := by
  unfold extract_annot_info at h
  split at h
  · rcases hb : extract_annot_info _ with e | j
    · rw [hb, except_bind_error] at h
      exact absurd h (by simp)
    · rw [hb, except_bind_ok] at h
      obtain ⟨hi, hall⟩ := finish_annot_ok _ _ _ _ _ h
      intro orig2 opt2
      rw [hi]
      exact hall orig2 opt2
  · rcases hb : extract_annot_info _ with e | j
    · rw [hb, except_bind_error] at h
      exact absurd h (by simp)
    · rw [hb, except_bind_ok] at h
      obtain ⟨hi, hall⟩ := finish_annot_ok _ _ _ _ _ h
      intro orig2 opt2
      rw [hi]
      exact hall orig2 opt2
  · exact absurd h (by simp)
  · obtain ⟨hi, hall⟩ := finish_annot_ok _ _ _ _ _ h
    intro orig2 opt2
    rw [hi]
    exact hall orig2 opt2

theorem union_arm_optionalized (u aArm : TypeExpr)
    (h : extract_annot_info u =
      extract_annot_info aArm >>= fun i => finish_annot u i.base i.args true) :
    extract_annot_info u = optionalized (extract_annot_info aArm) := by
  rcases hb : extract_annot_info aArm with e | j
  · rw [h, hb, except_bind_error]
    rfl
  · rw [h, hb, except_bind_ok]
    have hf := extract_ok_finish aArm j hb u true
    rw [hf]
    rfl

/-- C5: a union annotation resolves exactly through the two-armed optional
rule — with two arguments one of which is `NoneType`, the resolver recurses
on the other arm and returns its base and arguments with
`is_optional = true`; any other union shape raises `UnsupportedTypeException`
whose payload names the union and enumerates the three accepted
optional-union spellings. -/
theorem c5_optional_union_rule (args : List TypeExpr) :
    (¬ (args.length = 2 ∧ hasNoneArm args = true) →
      extract_annot_info (.union args) =
        .error (.unsupportedType (typeRepr (.union args)) (some "Union") threeSpellings)) ∧
    (∀ bArm, args = [.noneT, bArm] →
      extract_annot_info (.union args) = optionalized (extract_annot_info bArm)) ∧
    (∀ aArm, args = [aArm, .noneT] →
      extract_annot_info (.union args) = optionalized (extract_annot_info aArm)) := by
  refine ⟨?_, ?_, ?_⟩
  · intro h
    rcases args with _ | ⟨a, _ | ⟨b, _ | ⟨c, rest⟩⟩⟩
    · rfl
    · cases a <;> rfl
    · have hn : hasNoneArm [a, b] = false := by
        rcases hh : hasNoneArm [a, b]
        · rfl
        · exact absurd ⟨rfl, hh⟩ h
      cases a <;> cases b <;> first
        | rfl
        | (exfalso; simp [hasNoneArm] at hn)
    · cases a <;> cases b <;> rfl
  · intro bArm heq
    subst heq
    exact union_arm_optionalized _ bArm (by rw [extract_annot_info])
  · intro aArm heq
    subst heq
    cases aArm <;> exact union_arm_optionalized _ _ (by rw [extract_annot_info] <;> simp)

/-- C5 witness: `Optional[int]` resolves to an optional `int`; a three-armed
union with a null arm is rejected with the enumerating error. -/
theorem c5_witness :
    extract_annot_info (.union [.int, .noneT]) = .ok ⟨.intH, [], true⟩ ∧
    extract_annot_info (.union [.int, .str, .noneT]) =
      .error (.unsupportedType "typing.Union[int, str, NoneType]" (some "Union")
        threeSpellings) := by
  constructor
  · have h := (c5_optional_union_rule [.int, .noneT]).2.2 .int rfl
    rw [h]
    rfl
  · have h := (c5_optional_union_rule [.int, .str, .noneT]).1 (by simp)
    exact h

theorem marshal_object_eq_record (fuel : Nat) (env : Env) (r : RecordDecl) (spec : String)
    (nameArg descArg : Option String) :
    marshal_object fuel env (.record r) spec nameArg descArg =
      (generateRecordFields fuel env r (map_param_to_description r.docParams) r.fields) >>=
        fun ps => .ok (.obj [("type", JVal.s "function"), ("function", JVal.obj (
          [("name", JVal.s ((pyOrStrOpt nameArg (some r.name)).getD r.name))] ++
          (if strTruthy (pyOrStrOpt descArg r.docSummary) then
            [("description", JVal.s ((pyOrStrOpt descArg r.docSummary).getD ""))] else []) ++
          [((if spec = "claude" then "input_schema" else "parameters"),
            marshal_parameters ps)]))]) := rfl

theorem marshal_object_eq_func (fuel : Nat) (env : Env) (f : FuncDecl) (spec : String)
    (nameArg descArg : Option String) :
    marshal_object fuel env (.func f) spec nameArg descArg =
      (gen_function_params fuel env (map_param_to_description f.docParams) f.params) >>=
        fun ps => .ok (.obj [("type", JVal.s "function"), ("function", JVal.obj (
          [("name", JVal.s ((pyOrStrOpt nameArg (some f.fname)).getD f.fname))] ++
          (if strTruthy (pyOrStrOpt descArg f.docSummary) then
            [("description", JVal.s ((pyOrStrOpt descArg f.docSummary).getD ""))] else []) ++
          [((if spec = "claude" then "input_schema" else "parameters"),
            marshal_parameters ps)]))]) := rfl

/-- C2: every successful `marshal_object` result is the mapping
`{type: "function", function: {name, description?, parameters|input_schema}}`
— the parameter block sits under `input_schema` exactly when
`spec = "claude"` and under `parameters` otherwise, and the `description`
key is present iff a (truthy) explicit description or a documentation
summary exists. -/
theorem c2_marshal_envelope (fuel : Nat) (env : Env) (obj : ObjTarget) (spec : String)
    (nameArg descArg : Option String) (v : JVal)
    (h : marshal_object fuel env obj spec nameArg descArg = .ok v) :
    ∃ fn pblock,
      v = .obj [("type", JVal.s "function"), ("function", JVal.obj fn)] ∧
      alookup fn "input_schema" = (if spec = "claude" then some pblock else Option.none) ∧
      alookup fn "parameters" = (if spec = "claude" then Option.none else some pblock) ∧
      (alookup fn "description").isSome =
        (strTruthy descArg || strTruthy (objDocSummary obj)) ∧
      alookup fn "name" =
        some (JVal.s ((pyOrStrOpt nameArg (some (objNameOf obj))).getD (objNameOf obj))) := by
  cases obj with
  | other =>
      have hother : marshal_object fuel env .other spec nameArg descArg =
          .error (.valueError "Schema generation failed, given object is not supported.") := rfl
      rw [hother] at h
      exact absurd h (by simp)
  | record r =>
      rw [marshal_object_eq_record] at h
      rcases hg : generateRecordFields fuel env r
          (map_param_to_description r.docParams) r.fields with e | ps
      · rw [hg, except_bind_error] at h
        exact absurd h (by simp)
      · rw [hg, except_bind_ok] at h
        simp only [Except.ok.injEq] at h
        subst h
        refine ⟨_, marshal_parameters ps, rfl, ?_, ?_, ?_, ?_⟩ <;>
          by_cases hs : spec = "claude" <;>
            by_cases hd : strTruthy (pyOrStrOpt descArg r.docSummary) = true <;>
              simp [alookup, hs, hd, objDocSummary, objNameOf, ← strTruthy_pyOr]
  | func f =>
      rw [marshal_object_eq_func] at h
      rcases hg : gen_function_params fuel env
          (map_param_to_description f.docParams) f.params with e | ps
      · rw [hg, except_bind_error] at h
        exact absurd h (by simp)
      · rw [hg, except_bind_ok] at h
        simp only [Except.ok.injEq] at h
        subst h
        refine ⟨_, marshal_parameters ps, rfl, ?_, ?_, ?_, ?_⟩ <;>
          by_cases hs : spec = "claude" <;>
            by_cases hd : strTruthy (pyOrStrOpt descArg f.docSummary) = true <;>
              simp [alookup, hs, hd, objDocSummary, objNameOf, ← strTruthy_pyOr]

/-- C2 witness: the parameterless function marshalled for the claude spec. -/
theorem c2_witness :
    ∃ fn pblock,
      (JVal.obj [("type", JVal.s "function"), ("function", JVal.obj
        [("name", JVal.s "f0"), ("input_schema", JVal.obj [])])]) =
        .obj [("type", JVal.s "function"), ("function", JVal.obj fn)] ∧
      alookup fn "input_schema" =
        (if ("claude" : String) = "claude" then some pblock else Option.none) ∧
      alookup fn "parameters" =
        (if ("claude" : String) = "claude" then Option.none else some pblock) ∧
      (alookup fn "description").isSome =
        (strTruthy Option.none || strTruthy (objDocSummary (.func f0))) ∧
      alookup fn "name" =
        some (JVal.s ((pyOrStrOpt Option.none (some (objNameOf (.func f0)))).getD
          (objNameOf (.func f0)))) :=
  c2_marshal_envelope 5 [] (.func f0) "claude" Option.none Option.none _ rfl

theorem except_map_ok {γ α β : Type} (a : α) (f : α → β) :
    (Except.ok a : Except γ α).map f = .ok (f a) := rfl

theorem except_map_error {γ α β : Type} (e : γ) (f : α → β) :
    (Except.error e : Except γ α).map f = (.error e : Except γ β) := rfl

theorem gen_typed_fields_cons (k : Nat) (env : Env) (tyName tb : String)
    (descmap : List (String × String)) (x : FieldDecl) (xs : List FieldDecl) :
    gen_typed_fields (k + 1) env tyName tb descmap (x :: xs) = (do
      let info ← extract_annot_info x.annot
      if recCond tyName info then .error (.recursiveParameter x.label tb tyName)
      else do
        let so ← marshal_annot k env info
        let schema :=
          match alookup descmap x.label with
          | some d => setDescr so.1 d
          | Option.none => so.1
        let tail ← gen_typed_fields k env tyName tb descmap xs
        .ok (⟨x.label, schema, !(so.2 || x.dflt.isSome)⟩ :: tail)) := rfl

theorem gen_pydantic_fields_cons (k : Nat) (env : Env) (mname : String)
    (descmap : List (String × String)) (x : FieldDecl) (xs : List FieldDecl) :
    gen_pydantic_fields (k + 1) env mname descmap (x :: xs) = (do
      let info ← extract_annot_info x.annot
      if recCond mname info then .error (.recursiveParameter x.label "pydantic model" mname)
      else do
        let so ← marshal_annot k env info
        let dd := pyOrStrOpt x.fdescr (alookup descmap x.label)
        let schema := if strTruthy dd then setDescr so.1 (dd.getD "") else so.1
        let tail ← gen_pydantic_fields k env mname descmap xs
        .ok (⟨x.label, schema, !so.2 && x.dflt.isNone⟩ :: tail)) := rfl

theorem compile_typed_fields_cons (k : Nat) (env : Env) (tyName tb : String)
    (argv : PyVal) (x : FieldDecl) (xs : List FieldDecl) :
    compile_typed_fields (k + 1) env tyName tb argv (x :: xs) = (do
      let info ← extract_annot_info x.annot
      if recCond tyName info then .error (.recursiveParameter x.label tb tyName)
      else do
        let raw ← aget argv x.label
        let vo ← compile_value k env info raw
        if !vo.2 && isNoneVal vo.1 && !x.dflt.isSome then
          .error (.requiredParameter x.label tb tyName)
        else do
          let v := if isNoneVal vo.1 then x.dflt.getD .none else vo.1
          let tail ← compile_typed_fields k env tyName tb argv xs
          .ok ((x.label, v) :: tail)) := rfl

theorem compile_pydantic_fields_cons (k : Nat) (env : Env) (mname : String)
    (argv : PyVal) (x : FieldDecl) (xs : List FieldDecl) :
    compile_pydantic_fields (k + 1) env mname argv (x :: xs) = (do
      let info ← extract_annot_info x.annot
      if recCond mname info then .error (.recursiveParameter x.label "pydantic model" mname)
      else do
        let raw ← aget argv x.label
        let vo ← compile_value k env info raw
        let value := if isNoneVal vo.1 && defaultUsable x.dflt then x.dflt.getD .none else vo.1
        if !vo.2 && isNoneVal value && x.dflt.isNone then
          .error (.requiredParameter x.label "pydantic model" mname)
        else do
          let tail ← compile_pydantic_fields k env mname argv xs
          .ok ((x.label, value) :: tail)) := rfl

theorem gen_typed_fields_reccond (k : Nat) (env : Env) (tyName tb : String)
    (descmap : List (String × String)) (f : FieldDecl) (post : List FieldDecl)
    (info : AnnotInfo) (he : extract_annot_info f.annot = .ok info)
    (hr : recCond tyName info = true) :
    gen_typed_fields (k + 1) env tyName tb descmap (f :: post) =
      .error (.recursiveParameter f.label tb tyName) := by
  rw [gen_typed_fields_cons, he, except_bind_ok, if_pos hr]

theorem gen_pydantic_fields_reccond (k : Nat) (env : Env) (mname : String)
    (descmap : List (String × String)) (f : FieldDecl) (post : List FieldDecl)
    (info : AnnotInfo) (he : extract_annot_info f.annot = .ok info)
    (hr : recCond mname info = true) :
    gen_pydantic_fields (k + 1) env mname descmap (f :: post) =
      .error (.recursiveParameter f.label "pydantic model" mname) := by
  rw [gen_pydantic_fields_cons, he, except_bind_ok, if_pos hr]

theorem compile_typed_fields_reccond (k : Nat) (env : Env) (tyName tb : String)
    (argv : PyVal) (f : FieldDecl) (post : List FieldDecl)
    (info : AnnotInfo) (he : extract_annot_info f.annot = .ok info)
    (hr : recCond tyName info = true) :
    compile_typed_fields (k + 1) env tyName tb argv (f :: post) =
      .error (.recursiveParameter f.label tb tyName) := by
  rw [compile_typed_fields_cons, he, except_bind_ok, if_pos hr]

theorem compile_pydantic_fields_reccond (k : Nat) (env : Env) (mname : String)
    (argv : PyVal) (f : FieldDecl) (post : List FieldDecl)
    (info : AnnotInfo) (he : extract_annot_info f.annot = .ok info)
    (hr : recCond mname info = true) :
    compile_pydantic_fields (k + 1) env mname argv (f :: post) =
      .error (.recursiveParameter f.label "pydantic model" mname) := by
  rw [compile_pydantic_fields_cons, he, except_bind_ok, if_pos hr]

theorem gen_typed_fields_append_ok (xs ys : List FieldDecl) :
    ∀ (fuel : Nat) (env : Env) (tyName tb : String) (descmap : List (String × String))
      (pms : List ParamMetadata),
      gen_typed_fields fuel env tyName tb descmap xs = .ok pms →
      gen_typed_fields fuel env tyName tb descmap (xs ++ ys) =
        (gen_typed_fields (fuel - xs.length) env tyName tb descmap ys).map
          (fun tail => pms ++ tail) := by
  induction xs with
  | nil =>
      intro fuel env tyName tb descmap pms h
      have h0 : gen_typed_fields fuel env tyName tb descmap [] = .ok [] := by
        simp [gen_typed_fields]
      rw [h0] at h
      simp only [Except.ok.injEq] at h
      subst h
      simp only [List.nil_append, List.length_nil, Nat.sub_zero]
      rcases hy : gen_typed_fields fuel env tyName tb descmap ys with e | t <;>
        simp [except_map_ok, except_map_error]
  | cons x xs ih =>
      intro fuel env tyName tb descmap pms h
      cases fuel with
      | zero =>
          have h0 : gen_typed_fields 0 env tyName tb descmap (x :: xs) =
            .error .recursionError := rfl
          rw [h0] at h
          exact absurd h (by simp)
      | succ k =>
          rw [gen_typed_fields_cons] at h
          rcases he : extract_annot_info x.annot with e | info
          · rw [he, except_bind_error] at h
            exact absurd h (by simp)
          · rw [he, except_bind_ok] at h
            by_cases hr : recCond tyName info = true
            · rw [if_pos hr] at h
              exact absurd h (by simp)
            · rw [if_neg hr] at h
              rcases hm : marshal_annot k env info with e | so
              · rw [hm, except_bind_error] at h
                exact absurd h (by simp)
              · rw [hm, except_bind_ok] at h
                rcases ht : gen_typed_fields k env tyName tb descmap xs with e | tail
                · rw [ht, except_bind_error] at h
                  exact absurd h (by simp)
                · rw [ht, except_bind_ok] at h
                  simp only [Except.ok.injEq] at h
                  subst h
                  rw [List.cons_append, gen_typed_fields_cons, he, except_bind_ok,
                    if_neg hr, hm, except_bind_ok,
                    ih k env tyName tb descmap tail ht]
                  simp only [List.length_cons, Nat.succ_sub_succ]
                  rcases hy : gen_typed_fields (k - xs.length) env tyName tb descmap ys with
                    e | tl <;>
                    simp [except_map_ok, except_map_error, except_bind_ok, except_bind_error]

theorem gen_pydantic_fields_append_ok (xs ys : List FieldDecl) :
    ∀ (fuel : Nat) (env : Env) (mname : String) (descmap : List (String × String))
      (pms : List ParamMetadata),
      gen_pydantic_fields fuel env mname descmap xs = .ok pms →
      gen_pydantic_fields fuel env mname descmap (xs ++ ys) =
        (gen_pydantic_fields (fuel - xs.length) env mname descmap ys).map
          (fun tail => pms ++ tail) := by
  induction xs with
  | nil =>
      intro fuel env mname descmap pms h
      have h0 : gen_pydantic_fields fuel env mname descmap [] = .ok [] := by
        simp [gen_pydantic_fields]
      rw [h0] at h
      simp only [Except.ok.injEq] at h
      subst h
      simp only [List.nil_append, List.length_nil, Nat.sub_zero]
      rcases hy : gen_pydantic_fields fuel env mname descmap ys with e | t <;>
        simp [except_map_ok, except_map_error]
  | cons x xs ih =>
      intro fuel env mname descmap pms h
      cases fuel with
      | zero =>
          have h0 : gen_pydantic_fields 0 env mname descmap (x :: xs) =
            .error .recursionError := rfl
          rw [h0] at h
          exact absurd h (by simp)
      | succ k =>
          rw [gen_pydantic_fields_cons] at h
          rcases he : extract_annot_info x.annot with e | info
          · rw [he, except_bind_error] at h
            exact absurd h (by simp)
          · rw [he, except_bind_ok] at h
            by_cases hr : recCond mname info = true
            · rw [if_pos hr] at h
              exact absurd h (by simp)
            · rw [if_neg hr] at h
              rcases hm : marshal_annot k env info with e | so
              · rw [hm, except_bind_error] at h
                exact absurd h (by simp)
              · rw [hm, except_bind_ok] at h
                rcases ht : gen_pydantic_fields k env mname descmap xs with e | tail
                · rw [ht, except_bind_error] at h
                  exact absurd h (by simp)
                · rw [ht, except_bind_ok] at h
                  simp only [Except.ok.injEq] at h
                  subst h
                  rw [List.cons_append, gen_pydantic_fields_cons, he, except_bind_ok,
                    if_neg hr, hm, except_bind_ok,
                    ih k env mname descmap tail ht]
                  simp only [List.length_cons, Nat.succ_sub_succ]
                  rcases hy : gen_pydantic_fields (k - xs.length) env mname descmap ys with
                    e | tl <;>
                    simp [except_map_ok, except_map_error, except_bind_ok, except_bind_error]

theorem compile_typed_fields_append_ok (xs ys : List FieldDecl) :
    ∀ (fuel : Nat) (env : Env) (tyName tb : String) (argv : PyVal)
      (flds : List (String × PyVal)),
      compile_typed_fields fuel env tyName tb argv xs = .ok flds →
      compile_typed_fields fuel env tyName tb argv (xs ++ ys) =
        (compile_typed_fields (fuel - xs.length) env tyName tb argv ys).map
          (fun tail => flds ++ tail) := by
  induction xs with
  | nil =>
      intro fuel env tyName tb argv flds h
      have h0 : compile_typed_fields fuel env tyName tb argv [] = .ok [] := by
        simp [compile_typed_fields]
      rw [h0] at h
      simp only [Except.ok.injEq] at h
      subst h
      simp only [List.nil_append, List.length_nil, Nat.sub_zero]
      rcases hy : compile_typed_fields fuel env tyName tb argv ys with e | t <;>
        simp [except_map_ok, except_map_error]
  | cons x xs ih =>
      intro fuel env tyName tb argv flds h
      cases fuel with
      | zero =>
          have h0 : compile_typed_fields 0 env tyName tb argv (x :: xs) =
            .error .recursionError := rfl
          rw [h0] at h
          exact absurd h (by simp)
      | succ k =>
          rw [compile_typed_fields_cons] at h
          rcases he : extract_annot_info x.annot with e | info
          · rw [he, except_bind_error] at h
            exact absurd h (by simp)
          · rw [he, except_bind_ok] at h
            by_cases hr : recCond tyName info = true
            · rw [if_pos hr] at h
              exact absurd h (by simp)
            · rw [if_neg hr] at h
              rcases ha : aget argv x.label with e | raw
              · rw [ha, except_bind_error] at h
                exact absurd h (by simp)
              · rw [ha, except_bind_ok] at h
                rcases hv : compile_value k env info raw with e | vo
                · rw [hv, except_bind_error] at h
                  exact absurd h (by simp)
                · rw [hv, except_bind_ok] at h
                  by_cases hq : (!vo.2 && isNoneVal vo.1 && !x.dflt.isSome) = true
                  · rw [if_pos hq] at h
                    exact absurd h (by simp)
                  · rw [if_neg hq] at h
                    rcases ht : compile_typed_fields k env tyName tb argv xs with e | tail
                    · rw [ht, except_bind_error] at h
                      exact absurd h (by simp)
                    · rw [ht, except_bind_ok] at h
                      simp only [Except.ok.injEq] at h
                      subst h
                      rw [List.cons_append, compile_typed_fields_cons, he, except_bind_ok,
                        if_neg hr, ha, except_bind_ok, hv, except_bind_ok, if_neg hq,
                        ih k env tyName tb argv tail ht]
                      simp only [List.length_cons, Nat.succ_sub_succ]
                      rcases hy : compile_typed_fields (k - xs.length) env tyName tb argv ys with
                        e | tl <;>
                        simp [except_map_ok, except_map_error, except_bind_ok, except_bind_error]

theorem compile_pydantic_fields_append_ok (xs ys : List FieldDecl) :
    ∀ (fuel : Nat) (env : Env) (mname : String) (argv : PyVal)
      (flds : List (String × PyVal)),
      compile_pydantic_fields fuel env mname argv xs = .ok flds →
      compile_pydantic_fields fuel env mname argv (xs ++ ys) =
        (compile_pydantic_fields (fuel - xs.length) env mname argv ys).map
          (fun tail => flds ++ tail) := by
  induction xs with
  | nil =>
      intro fuel env mname argv flds h
      have h0 : compile_pydantic_fields fuel env mname argv [] = .ok [] := by
        simp [compile_pydantic_fields]
      rw [h0] at h
      simp only [Except.ok.injEq] at h
      subst h
      simp only [List.nil_append, List.length_nil, Nat.sub_zero]
      rcases hy : compile_pydantic_fields fuel env mname argv ys with e | t <;>
        simp [except_map_ok, except_map_error]
  | cons x xs ih =>
      intro fuel env mname argv flds h
      cases fuel with
      | zero =>
          have h0 : compile_pydantic_fields 0 env mname argv (x :: xs) =
            .error .recursionError := rfl
          rw [h0] at h
          exact absurd h (by simp)
      | succ k =>
          rw [compile_pydantic_fields_cons] at h
          rcases he : extract_annot_info x.annot with e | info
          · rw [he, except_bind_error] at h
            exact absurd h (by simp)
          · rw [he, except_bind_ok] at h
            by_cases hr : recCond mname info = true
            · rw [if_pos hr] at h
              exact absurd h (by simp)
            · rw [if_neg hr] at h
              rcases ha : aget argv x.label with e | raw
              · rw [ha, except_bind_error] at h
                exact absurd h (by simp)
              · rw [ha, except_bind_ok] at h
                rcases hv : compile_value k env info raw with e | vo
                · rw [hv, except_bind_error] at h
                  exact absurd h (by simp)
                · rw [hv, except_bind_ok] at h
                  by_cases hq : (!vo.2 &&
                      isNoneVal (if isNoneVal vo.1 && defaultUsable x.dflt
                        then x.dflt.getD .none else vo.1) && x.dflt.isNone) = true
                  · rw [if_pos hq] at h
                    exact absurd h (by simp)
                  · rw [if_neg hq] at h
                    rcases ht : compile_pydantic_fields k env mname argv xs with e | tail
                    · rw [ht, except_bind_error] at h
                      exact absurd h (by simp)
                    · rw [ht, except_bind_ok] at h
                      simp only [Except.ok.injEq] at h
                      subst h
                      rw [List.cons_append, compile_pydantic_fields_cons, he, except_bind_ok,
                        if_neg hr, ha, except_bind_ok, hv, except_bind_ok, if_neg hq,
                        ih k env mname argv tail ht]
                      simp only [List.length_cons, Nat.succ_sub_succ]
                      rcases hy : compile_pydantic_fields (k - xs.length) env mname argv ys with
                        e | tl <;>
                        simp [except_map_ok, except_map_error, except_bind_ok, except_bind_error]

/-- C4: for every structured-record type with a field whose resolved
annotation has the enclosing type as its base or among its type arguments,
both the marshal-side metadata generator and the compile-side record
compiler stop with `RecursiveParameterException` for that field, before
recursing into its schema generation or value compilation (the error is
independent of the remaining fuel, of the raw arguments value, and of what
marshalling or compiling the field would produce). -/
theorem c4_recursive_field_guard (fuel : Nat) (env : Env) (r : RecordDecl)
    (descmap : List (String × String)) (argv : PyVal)
    (pre post : List FieldDecl) (f : FieldDecl) (info : AnnotInfo)
    (hfields : r.fields = pre ++ f :: post)
    (hex : extract_annot_info f.annot = .ok info)
    (hrec : recCond r.name info = true)
    (hfuel : pre.length < fuel)
    (hpreM : ∃ pms, generateRecordFields fuel env r descmap pre = .ok pms)
    (hpreC : ∃ flds, compileRecordFields fuel env r argv pre = .ok flds) :
    generateRecordFields fuel env r descmap r.fields =
      .error (.recursiveParameter f.label (marshalTypeBase r.kind) r.name) ∧
    compile_record fuel env r argv =
      .error (.recursiveParameter f.label (compileTypeBase r.kind) r.name) := by
  obtain ⟨pms, hpm⟩ := hpreM
  obtain ⟨flds, hpc⟩ := hpreC
  obtain ⟨k, hk⟩ : ∃ k, fuel - pre.length = k + 1 := ⟨fuel - pre.length - 1, by omega⟩
  obtain ⟨rname, rkind, rfieldsv, rds, rdp⟩ := r
  simp only at hfields hex hrec hpm hpc ⊢
  subst hfields
  cases rkind with
  | namedtuple =>
      constructor
      · show gen_typed_fields fuel env rname "NamedTuple" descmap (pre ++ f :: post) = _
        rw [gen_typed_fields_append_ok pre (f :: post) fuel env rname "NamedTuple" descmap
          pms hpm, hk, gen_typed_fields_reccond k env rname "NamedTuple" descmap f post
          info hex hrec, except_map_error]
        rfl
      · show (compile_typed_fields fuel env rname "NamedTuple" argv (pre ++ f :: post) >>=
            fun flds2 => Except.ok (PyVal.recordInst rname flds2)) = _
        rw [compile_typed_fields_append_ok pre (f :: post) fuel env rname "NamedTuple" argv
          flds hpc, hk, compile_typed_fields_reccond k env rname "NamedTuple" argv f post
          info hex hrec, except_map_error, except_bind_error]
        rfl
  | typeddict =>
      constructor
      · show gen_typed_fields fuel env rname "TypeDict" descmap (pre ++ f :: post) = _
        rw [gen_typed_fields_append_ok pre (f :: post) fuel env rname "TypeDict" descmap
          pms hpm, hk, gen_typed_fields_reccond k env rname "TypeDict" descmap f post
          info hex hrec, except_map_error]
        rfl
      · show (compile_typed_fields fuel env rname "TypedDict" argv (pre ++ f :: post) >>=
            fun flds2 => Except.ok (PyVal.recordInst rname flds2)) = _
        rw [compile_typed_fields_append_ok pre (f :: post) fuel env rname "TypedDict" argv
          flds hpc, hk, compile_typed_fields_reccond k env rname "TypedDict" argv f post
          info hex hrec, except_map_error, except_bind_error]
        rfl
  | pydantic =>
      constructor
      · show gen_pydantic_fields fuel env rname descmap (pre ++ f :: post) = _
        rw [gen_pydantic_fields_append_ok pre (f :: post) fuel env rname descmap
          pms hpm, hk, gen_pydantic_fields_reccond k env rname descmap f post
          info hex hrec, except_map_error]
        rfl
      · show (compile_pydantic_fields fuel env rname argv (pre ++ f :: post) >>=
            fun flds2 => Except.ok (PyVal.recordInst rname flds2)) = _
        rw [compile_pydantic_fields_append_ok pre (f :: post) fuel env rname argv
          flds hpc, hk, compile_pydantic_fields_reccond k env rname argv f post
          info hex hrec, except_map_error, except_bind_error]
        rfl

/-- C4 witness: the recursive NamedTuple `Model(models: Set["Model"])` is
rejected by both marshal and compile with the recursive-parameter error. -/
theorem c4_witness :
    generateRecordFields 7 [modelNT] modelNT [] modelNT.fields =
      .error (.recursiveParameter "models" "NamedTuple" "Model") ∧
    compile_record 7 [modelNT] modelNT (.dict []) =
      .error (.recursiveParameter "models" "NamedTuple" "Model") :=
  c4_recursive_field_guard 7 [modelNT] modelNT [] (.dict []) [] []
    ⟨"models", .setT [.record "Model"], Option.none, Option.none⟩
    ⟨.setH, [.ty (.record "Model")], false⟩ rfl rfl rfl (by decide) ⟨[], rfl⟩ ⟨[], rfl⟩
